import Mathlib

/-!
Shallow embedding of `src/internal/drawImage.js`: a redraw-request
coalescing scheduler driven by `requestAnimationFrame`.

Modelling conventions:
* Surfaces (DOM elements) and callbacks are identified by natural numbers.
* `elementsDrawMap` (a JS `Map`) is an association list kept in insertion
  order; `Map.forEach` visits entries in that order.  The iteration in
  `step` walks the key list present when the tick starts and looks each
  entry up live, so field mutations made during the tick are observed.
  (JS `Map.forEach` would additionally visit keys inserted during the
  iteration; no scenario below inserts a new key mid-tick.)
* `performance.now()` is a natural-number clock sampled once per entry
  point into the module (time is frozen within a single call).
* `requestAnimationFrame` hands out fresh ids from a counter starting at 1
  (browser ids are positive, hence always truthy); `pending` is the
  host-side one-shot slot: the host invokes `step` only while a frame is
  pending, and consumes the pending slot when the frame fires.  The
  module-level `rafId` variable is exactly the JS variable: it may keep a
  stale id of an already-fired frame.
* Exceptions are explicit: fallible calls return a `Bool` "threw" flag
  alongside the state and the event log.
* The external collaborators (`drawImageSync`, `triggerEvent`,
  `getEnabledElement`, the rAF primitive) live in this repository outside
  the given source file; they are modelled from the spec:
  `render(context, forceInvalidate)` performs pixel output (an event here),
  `notify` emits a pre-render event, `resolveContext` looks the surface up
  in a registry and fails when it has been torn down, the rAF primitive
  schedules a single-shot invocation and can be cancelled.  Callback and
  render-routine behaviour (return / throw / issue a redraw) is supplied
  by an environment.
-/

/-- Truthiness-relevant fields of the `enabledElement` argument of
`drawImage`.  `layers = none` models an object with no `layers` property
(so `enabledElement.layers.length` throws a TypeError when evaluated);
`some n` models an array of length `n`. -/
structure EE where
  element : Nat
  canvas : Bool
  image : Bool
  layers : Option Nat
deriving DecidableEq, Repr

/-- State of an enabled element as resolved through `getEnabledElement`.
The argument object of a well-formed `drawImage` call aliases this registry
entry, so the mutation `enabledElement.invalid = true` is recorded here. -/
structure EEData where
  canvas : Bool
  image : Bool
  layers : Option Nat
  invalid : Bool
deriving DecidableEq, Repr

/-- One value of `elementsDrawMap`: the dirty flag and the callback set
(a JS `Set`, i.e. an insertion-ordered list without duplicates; `add`
appends only when absent, `delete` removes). -/
structure Entry where
  needsRedraw : Bool
  callbacks : List Nat
deriving DecidableEq, Repr

/-- Observable events of one run: pre-render notifications, calls into the
render routine `drawImageSync` (with the invalidate flag passed), callback
invocations, and `requestAnimationFrame` / `cancelAnimationFrame` calls. -/
inductive Ev where
  | preRender (element : Nat)
  | render (element : Nat) (invalid : Bool)
  | cbInvoke (element : Nat) (cb : Nat)
  | arm (id : Nat)
  | cancel (id : Nat)
deriving DecidableEq, Repr

/-- Behaviour of a registered callback when invoked: return normally,
throw, or synchronously call `drawImage` with the given arguments. -/
inductive CbBeh where
  | ret
  | throwErr
  | redraw (arg : Option EE) (invalidated : Bool)

/-- Environment of one entry into the module: the frozen clock value, the
behaviour of each callback id, which elements the external render routine
throws on, and whether the host document exposes a visibility API. -/
structure Env where
  now : Nat
  cbBeh : Nat → CbBeh
  renderThrows : Nat → Bool
  hasVisAPI : Bool

/-- The module-level mutable state of `drawImage.js` plus the external
pieces it interacts with (the enabled-element registry and the host's
pending single-shot frame slot). -/
structure World where
  enabledElements : List (Nat × EEData)
  elementsDrawMap : List (Nat × Entry)
  rafId : Option Nat
  rafStopTime : Option Nat
  pending : Option Nat
  nextId : Nat
  visRegistered : Bool
  visListener : Bool
deriving DecidableEq, Repr

/-- Association-list lookup (JS `Map.get` / registry lookup). -/
def alFind {β : Type} : List (Nat × β) → Nat → Option β
  | [], _ => none
  | (k, v) :: rest, key => if k = key then some v else alFind rest key

/-- Association-list in-place field update; no-op when the key is absent
(mutating a field of the object stored under the key). -/
def alUpd {β : Type} : List (Nat × β) → Nat → (β → β) → List (Nat × β)
  | [], _, _ => []
  | (k, v) :: rest, key, f =>
    if k = key then (k, f v) :: rest else (k, v) :: alUpd rest key f

/-- `const rafStopMaxTime = 100`. -/
def rafStopMaxTime : Nat := 100

/-- `registerVisibilityChange()`: guarded by a flag stashed on the function
itself; the flag is set before feature detection, so in a host without a
visibility API the flag is set but no listener is installed. -/
def registerVisibilityChange (env : Env) (w : World) : World :=
  if w.visRegistered then w
  else { w with visRegistered := true, visListener := env.hasVisAPI }

/-- Body of `drawImage` after the argument guard has passed: record the
invalidation on the enabled element, ensure a draw-map entry, mark it
dirty, push the idle deadline forward, and arm a frame if none is armed. -/
def drawImageBody (env : Env) (w : World) (e : EE) (invalidated : Bool) :
    World × List Ev × Bool :=
  let w2 := if invalidated then
      { w with enabledElements :=
          alUpd w.enabledElements e.element (fun d => { d with invalid := true }) }
    else w
  let m := if (alFind w2.elementsDrawMap e.element).isSome then w2.elementsDrawMap
    else w2.elementsDrawMap ++ [(e.element, { needsRedraw := false, callbacks := [] })]
  let m2 := alUpd m e.element (fun en => { en with needsRedraw := true })
  let w3 := { w2 with elementsDrawMap := m2,
                      rafStopTime := some (env.now + rafStopMaxTime) }
  match w3.rafId with
  | some _ => (w3, [], false)
  | none =>
    ({ w3 with rafId := some w3.nextId, pending := some w3.nextId,
               nextId := w3.nextId + 1 },
     [Ev.arm w3.nextId], false)

/-- `drawImage(enabledElement, invalidated)`.  The third component is true
when the call throws: the guard evaluates `enabledElement.layers.length`
only when the element is truthy, has a truthy `canvas` and a falsy
`image`, and that access throws a TypeError when there is no `layers`
property. -/
def drawImage (env : Env) (w : World) (arg : Option EE) (invalidated : Bool) :
    World × List Ev × Bool :=
  let w1 := registerVisibilityChange env w
  match arg with
  | none => (w1, [], false)
  | some e =>
    if !e.canvas then (w1, [], false)
    else if e.image then drawImageBody env w1 e invalidated
    else match e.layers with
      | none => (w1, [], true)
      | some n => if n < 1 then (w1, [], false) else drawImageBody env w1 e invalidated

/-- The per-entry callback loop: each callback runs inside its own
`try`/`catch`, so a throw (from the callback or from a `drawImage` it
performs) is swallowed and the remaining callbacks still run. -/
def runCallbacks (env : Env) (el : Nat) : List Nat → World → World × List Ev
  | [], w => (w, [])
  | cb :: cbs, w =>
    let inner : World × List Ev :=
      match env.cbBeh cb with
      | CbBeh.ret => (w, [])
      | CbBeh.throwErr => (w, [])
      | CbBeh.redraw a i =>
        let r := drawImage env w a i
        (r.1, r.2.1)
    let rest := runCallbacks env el cbs inner.1
    (rest.1, Ev.cbInvoke el cb :: inner.2 ++ rest.2)

/-- One entry of the `forEach` body in `step`: skip clean entries; resolve
the element (a `getEnabledElement` failure is caught and skips the entry
while leaving it dirty); emit the pre-render event; call the render
routine — a throw here propagates (third component true) before the dirty
flag is cleared; otherwise clear the dirty flag, run the callbacks and, if
there were any, push the idle deadline forward. -/
def processEntry (env : Env) (w : World) (el : Nat) : World × List Ev × Bool :=
  match alFind w.elementsDrawMap el with
  | none => (w, [], false)
  | some entry =>
    if !entry.needsRedraw then (w, [], false)
    else match alFind w.enabledElements el with
      | none => (w, [], false)
      | some ee =>
        if env.renderThrows el then (w, [Ev.preRender el], true)
        else
          let m1 := alUpd w.elementsDrawMap el (fun en => { en with needsRedraw := false })
          let w1 := { w with elementsDrawMap := m1 }
          if entry.callbacks.isEmpty then
            (w1, [Ev.preRender el, Ev.render el ee.invalid], false)
          else
            let r := runCallbacks env el entry.callbacks w1
            ({ r.1 with rafStopTime := some (env.now + rafStopMaxTime) },
             Ev.preRender el :: Ev.render el ee.invalid :: r.2, false)

/-- The drain over the keys of `elementsDrawMap`; an uncaught throw from an
entry aborts the remaining iteration and propagates. -/
def stepLoop (env : Env) : List Nat → World → World × List Ev × Bool
  | [], w => (w, [], false)
  | el :: rest, w =>
    let r := processEntry env w el
    if r.2.2 then (r.1, r.2.1, true)
    else
      let s := stepLoop env rest r.1
      (s.1, r.2.1 ++ s.2.1, s.2.2)

/-- `stopRaf()`: cancel the recorded frame if any (cancelling an already
spent handle is harmless) and null the module variable. -/
def stopRaf (w : World) : World × List Ev :=
  match w.rafId with
  | none => (w, [])
  | some h =>
    ({ w with pending := if w.pending = some h then none else w.pending,
              rafId := none },
     [Ev.cancel h])

/-- `step()`: drain the table, then either re-arm (when the idle deadline
is set and still in the future) or stop.  When the drain throws, the
exception propagates and this tail is skipped entirely. -/
def step (env : Env) (w : World) : World × List Ev × Bool :=
  let r := stepLoop env (w.elementsDrawMap.map Prod.fst) w
  if r.2.2 then r
  else
    let w1 := r.1
    match w1.rafStopTime with
    | some t =>
      if env.now < t then
        ({ w1 with rafId := some w1.nextId, pending := some w1.nextId,
                   nextId := w1.nextId + 1 },
         r.2.1 ++ [Ev.arm w1.nextId], false)
      else
        let s := stopRaf w1
        (s.1, r.2.1 ++ s.2, false)
    | none =>
      let s := stopRaf w1
      (s.1, r.2.1 ++ s.2, false)

/-- `addDrawCallback(element, f)`: falsy element is a no-op; otherwise
ensure an entry and add `f` to its callback set (JS `Set.add`). -/
def addDrawCallback (w : World) (element : Option Nat) (f : Nat) : World :=
  match element with
  | none => w
  | some el =>
    let m := if (alFind w.elementsDrawMap el).isSome then w.elementsDrawMap
      else w.elementsDrawMap ++ [(el, { needsRedraw := false, callbacks := [] })]
    { w with elementsDrawMap := alUpd m el (fun en =>
        { en with callbacks :=
            if f ∈ en.callbacks then en.callbacks else en.callbacks ++ [f] }) }

/-- `removeDrawCallback(element, f)`: falsy element or unknown element is a
no-op; otherwise delete `f` from the entry's callback set. -/
def removeDrawCallback (w : World) (element : Option Nat) (f : Nat) : World :=
  match element with
  | none => w
  | some el =>
    match alFind w.elementsDrawMap el with
    | none => w
    | some _ =>
      { w with elementsDrawMap := alUpd w.elementsDrawMap el (fun en =>
          { en with callbacks := en.callbacks.filter (fun c => c != f) }) }

/-- Host-level actions driving the module: registry changes performed by
the rest of the library (`enable` / surface teardown), the public calls,
the firing of a pending frame, and visibility transitions. -/
inductive Act where
  | enable (el : Nat) (d : EEData)
  | teardown (el : Nat)
  | redraw (now : Nat) (arg : Option EE) (invalidated : Bool)
  | addCb (element : Option Nat) (f : Nat)
  | removeCb (element : Option Nat) (f : Nat)
  | tick (now : Nat)
  | visibility (now : Nat) (hidden : Bool)

/-- Trace-global behaviours (the per-entry clock comes with each action). -/
structure Behaviors where
  cbBeh : Nat → CbBeh
  renderThrows : Nat → Bool
  hasVisAPI : Bool

def mkEnv (b : Behaviors) (now : Nat) : Env :=
  { now := now, cbBeh := b.cbBeh, renderThrows := b.renderThrows,
    hasVisAPI := b.hasVisAPI }

/-- One host-level action.  A frame fires only while one is pending, and
firing consumes the pending slot before `step` runs; an exception escaping
`step` ends the frame but the mutated state persists.  The visibility
listener (when installed) stops the loop on hide, and on show stops then
unconditionally re-arms with a fresh idle deadline. -/
def runAct (b : Behaviors) (w : World) : Act → World × List Ev
  | Act.enable el d =>
    ({ w with enabledElements :=
        (w.enabledElements.filter (fun p => p.1 != el)) ++ [(el, d)] }, [])
  | Act.teardown el =>
    ({ w with enabledElements := w.enabledElements.filter (fun p => p.1 != el) }, [])
  | Act.redraw now arg inv =>
    let r := drawImage (mkEnv b now) w arg inv
    (r.1, r.2.1)
  | Act.addCb el f => (addDrawCallback w el f, [])
  | Act.removeCb el f => (removeDrawCallback w el f, [])
  | Act.tick now =>
    match w.pending with
    | none => (w, [])
    | some _ =>
      let r := step (mkEnv b now) { w with pending := none }
      (r.1, r.2.1)
  | Act.visibility now hidden =>
    if !w.visListener then (w, [])
    else
      let s := stopRaf w
      if hidden then (s.1, s.2)
      else
        let w1 := { s.1 with rafStopTime := some (now + rafStopMaxTime) }
        ({ w1 with rafId := some w1.nextId, pending := some w1.nextId,
                   nextId := w1.nextId + 1 },
         s.2 ++ [Ev.arm w1.nextId])

def runTrace (b : Behaviors) (w : World) : List Act → World × List Ev
  | [] => (w, [])
  | a :: rest =>
    let r := runAct b w a
    let s := runTrace b r.1 rest
    (s.1, r.2 ++ s.2)

/-- The state at module load. -/
def initWorld : World :=
  { enabledElements := [], elementsDrawMap := [], rafId := none,
    rafStopTime := none, pending := none, nextId := 1,
    visRegistered := false, visListener := false }

/-- Number of render-routine calls for a given element in a log. -/
def countRender (l : List Ev) (el : Nat) : Nat :=
  l.countP (fun ev => match ev with | Ev.render x _ => x == el | _ => false)

/-- Number of invocations of a given callback for a given element. -/
def countCb (l : List Ev) (el cb : Nat) : Nat :=
  l.countP (fun ev => match ev with | Ev.cbInvoke x c => x == el && c == cb | _ => false)

/-- Number of `requestAnimationFrame` calls in a log. -/
def countArm (l : List Ev) : Nat :=
  l.countP (fun ev => match ev with | Ev.arm _ => true | _ => false)

/-- The dirty flag of an element's entry (false when no entry exists). -/
def dirtyAt (w : World) (el : Nat) : Bool :=
  match alFind w.elementsDrawMap el with
  | some en => en.needsRedraw
  | none => false

/-- Environments whose callbacks never issue a redraw. -/
def noRedrawEnv (env : Env) : Prop :=
  ∀ cb a i, env.cbBeh cb ≠ CbBeh.redraw a i

/-- Environments whose render routine never throws. -/
def noRenderThrows (env : Env) : Prop :=
  ∀ el, env.renderThrows el = false

/-- The guard of `drawImage` rejects the argument without throwing. -/
def guardRejects (arg : Option EE) : Bool :=
  match arg with
  | none => true
  | some e =>
    !e.canvas || (!e.image && (match e.layers with
      | some n => n < 1
      | none => false))

/-- The argument passes the guard of `drawImage` without throwing. -/
def guardPasses (arg : EE) : Prop :=
  arg.canvas = true ∧ (arg.image = true ∨ ∃ n, arg.layers = some n ∧ 1 ≤ n)

/-- The world after clearing the dirty flag of one entry (the in-place
`entry.needsRedraw = false` mutation inside `step`). -/
def clearDirty (w : World) (el : Nat) : World :=
  { w with elementsDrawMap :=
      alUpd w.elementsDrawMap el (fun en => { en with needsRedraw := false }) }

/-- The host-side handle either is spent or matches the module's `rafId`;
this holds whenever the module is entered from outside. -/
def pendInv (w : World) : Prop :=
  w.pending = none ∨ w.pending = w.rafId

/-- Modelled from the spec: the tick handler as the specification words it
(`onRefreshTick` step 1): it first clears the active-request marker and
then performs the same drain and tail as the source `step`.  Used solely
to compare the specified shape against the source one. -/
def stepSpecClearFirst (env : Env) (w : World) : World × List Ev × Bool :=
  step env { w with rafId := none }

/-! ### Concrete scenario data used by witnesses and counterexamples -/

/-- An environment whose callbacks all return and whose render routine
never throws. -/
def envRet : Env :=
  { now := 10, cbBeh := fun _ => CbBeh.ret, renderThrows := fun _ => false,
    hasVisAPI := true }

/-- Trace behaviours matching `envRet`. -/
def behRet : Behaviors :=
  { cbBeh := fun _ => CbBeh.ret, renderThrows := fun _ => false, hasVisAPI := true }

/-- A well-formed enabled element for surface 1 (it has an image). -/
def eeA : EE := { element := 1, canvas := true, image := true, layers := none }

/-- A well-formed enabled element for surface 2. -/
def eeB : EE := { element := 2, canvas := true, image := true, layers := none }

/-- Registry data for a surface with an image and a clean invalid flag. -/
def dA : EEData := { canvas := true, image := true, layers := none, invalid := false }

/-- An argument with a canvas, no image and no `layers` property: the guard
evaluates `layers.length` on it. -/
def eeBad : EE := { element := 0, canvas := true, image := false, layers := none }

/-- Environment where callback 7 issues `drawImage(eeA, false)` from inside
the tick. -/
def envCbRedraw : Env :=
  { now := 10,
    cbBeh := fun c => if c = 7 then CbBeh.redraw (some eeA) false else CbBeh.ret,
    renderThrows := fun _ => false, hasVisAPI := true }

/-- Mid-trace state for a tick: surface 1 dirty with callback 7 registered,
the frame for handle 1 just fired (`pending` consumed, `rafId` still 1). -/
def wCb : World :=
  { enabledElements := [(1, dA)], elementsDrawMap := [(1, { needsRedraw := true, callbacks := [7] })],
    rafId := some 1, rafStopTime := some 50, pending := none, nextId := 2,
    visRegistered := true, visListener := true }

/-- Mid-trace state for a tick: surface 1 dirty but torn down (absent from
the registry), the frame for handle 1 just fired. -/
def wUnres : World :=
  { enabledElements := [], elementsDrawMap := [(1, { needsRedraw := true, callbacks := [] })],
    rafId := some 1, rafStopTime := some 50, pending := none, nextId := 2,
    visRegistered := true, visListener := true }

/-- Trace behaviours where the render routine throws on surface 1. -/
def behThrow1 : Behaviors :=
  { cbBeh := fun _ => CbBeh.ret, renderThrows := fun el => el = 1, hasVisAPI := true }

/-- Trace reaching a render-routine throw: surfaces 1 and 2 enabled and
marked dirty, then the tick fires and the render of surface 1 throws. -/
def actsThrow : List Act :=
  [Act.enable 1 dA, Act.enable 2 dA, Act.redraw 0 (some eeA) false,
   Act.redraw 0 (some eeB) false, Act.tick 10]

/-- Continuation of `actsThrow`: a later redraw request and a later frame
opportunity, after the throwing tick. -/
def actsThrowCont : List Act :=
  actsThrow ++ [Act.redraw 20 (some eeB) false, Act.tick 25]

/-- Trace reaching dirty-but-unscheduled: surface 1 is marked dirty, torn
down, and the tick fires after the idle window expired. -/
def actsStall : List Act :=
  [Act.enable 1 dA, Act.redraw 0 (some eeA) false, Act.teardown 1, Act.tick 150]

/-- The Dirty-implies-armed invariant claimed for all reachable states. -/
def dirtyImpliesArmed (w : World) : Bool :=
  w.elementsDrawMap.all (fun p => !p.2.needsRedraw) || w.rafId.isSome

/-- A fresh module state with surface 1 enabled. -/
def wReg1 : World := { initWorld with enabledElements := [(1, dA)] }

/-- Mid-trace tick state with surface 1 dirty but torn down and surface 2
dirty and resolvable. -/
def wUnres2 : World :=
  { enabledElements := [(2, dA)],
    elementsDrawMap := [(1, { needsRedraw := true, callbacks := [] }),
                        (2, { needsRedraw := true, callbacks := [] })],
    rafId := some 1, rafStopTime := some 50, pending := none, nextId := 2,
    visRegistered := true, visListener := true }

/-- Environment where callback 5 throws and every other callback returns. -/
def envCbThrow : Env :=
  { now := 10, cbBeh := fun c => if c = 5 then CbBeh.throwErr else CbBeh.ret,
    renderThrows := fun _ => false, hasVisAPI := true }

/-- Mid-trace tick state: surfaces 1 and 2 dirty and resolvable, surface 1
carrying callbacks 5 (throwing) and 7, surface 2 carrying callback 9. -/
def wTwoCb : World :=
  { enabledElements := [(1, dA), (2, dA)],
    elementsDrawMap := [(1, { needsRedraw := true, callbacks := [5, 7] }),
                        (2, { needsRedraw := true, callbacks := [9] })],
    rafId := some 1, rafStopTime := some 50, pending := none, nextId := 2,
    visRegistered := true, visListener := true }

/-! ### Association-list lemmas -/

theorem alFind_alUpd_self {β : Type} (m : List (Nat × β)) (k : Nat) (f : β → β) :
    alFind (alUpd m k f) k = (alFind m k).map f := by
  induction m with
  | nil => simp [alFind, alUpd]
  | cons p rest ih =>
    obtain ⟨a, v⟩ := p
    by_cases h : a = k
    · simp [alFind, alUpd, h]
    · simp [alFind, alUpd, h, ih]

theorem alFind_alUpd_ne {β : Type} (m : List (Nat × β)) (k e : Nat) (f : β → β)
    (h : k ≠ e) : alFind (alUpd m k f) e = alFind m e := by
  induction m with
  | nil => simp [alFind, alUpd]
  | cons p rest ih =>
    obtain ⟨a, v⟩ := p
    by_cases ha : a = k
    · subst ha
      simp [alFind, alUpd, h]
    · simp [alFind, alUpd, ha, ih]

theorem alUpd_keys {β : Type} (m : List (Nat × β)) (k : Nat) (f : β → β) :
    (alUpd m k f).map Prod.fst = m.map Prod.fst := by
  induction m with
  | nil => simp [alUpd]
  | cons p rest ih =>
    obtain ⟨a, v⟩ := p
    by_cases ha : a = k
    · simp [alUpd, ha]
    · simp [alUpd, ha, ih]

theorem alFind_append_of_none {β : Type} (m m2 : List (Nat × β)) (k : Nat)
    (h : alFind m k = none) : alFind (m ++ m2) k = alFind m2 k := by
  induction m with
  | nil => simp
  | cons p rest ih =>
    obtain ⟨a, v⟩ := p
    by_cases ha : a = k
    · simp [alFind, ha] at h
    · simp only [alFind, ha, if_false, List.cons_append] at h ⊢
      simp [alFind, ha]
      exact ih h

theorem alFind_none_iff {β : Type} (m : List (Nat × β)) (k : Nat) :
    alFind m k = none ↔ k ∉ m.map Prod.fst := by
  induction m with
  | nil => simp [alFind]
  | cons p rest ih =>
    obtain ⟨a, v⟩ := p
    by_cases ha : a = k
    · simp [alFind, ha]
    · simp [alFind, ha, ih]
      intro hk
      exact fun hh => ha hh.symm

theorem alUpd_of_find_eq {β : Type} (m : List (Nat × β)) (k : Nat) (v : β)
    (f : β → β) (hf : alFind m k = some v) (hv : f v = v) : alUpd m k f = m := by
  induction m with
  | nil => simp [alFind] at hf
  | cons p rest ih =>
    obtain ⟨a, w⟩ := p
    by_cases ha : a = k
    · subst ha
      simp [alFind] at hf
      subst hf
      simp [alUpd, hv]
    · simp [alFind, ha] at hf
      simp [alUpd, ha, ih hf]

/-! ### registerVisibilityChange and drawImage guard lemmas -/

@[simp] theorem regVis_enabledElements (env : Env) (w : World) :
    (registerVisibilityChange env w).enabledElements = w.enabledElements := by
  unfold registerVisibilityChange
  split <;> rfl

@[simp] theorem regVis_elementsDrawMap (env : Env) (w : World) :
    (registerVisibilityChange env w).elementsDrawMap = w.elementsDrawMap := by
  unfold registerVisibilityChange
  split <;> rfl

@[simp] theorem regVis_rafId (env : Env) (w : World) :
    (registerVisibilityChange env w).rafId = w.rafId := by
  unfold registerVisibilityChange
  split <;> rfl

@[simp] theorem regVis_rafStopTime (env : Env) (w : World) :
    (registerVisibilityChange env w).rafStopTime = w.rafStopTime := by
  unfold registerVisibilityChange
  split <;> rfl

@[simp] theorem regVis_pending (env : Env) (w : World) :
    (registerVisibilityChange env w).pending = w.pending := by
  unfold registerVisibilityChange
  split <;> rfl

@[simp] theorem regVis_nextId (env : Env) (w : World) :
    (registerVisibilityChange env w).nextId = w.nextId := by
  unfold registerVisibilityChange
  split <;> rfl

@[simp] theorem regVis_visRegistered (env : Env) (w : World) :
    (registerVisibilityChange env w).visRegistered = true := by
  unfold registerVisibilityChange
  split
  · assumption
  · rfl

theorem drawImage_of_guardPasses (env : Env) (w : World) (a : EE) (i : Bool)
    (h : guardPasses a) :
    drawImage env w (some a) i = drawImageBody env (registerVisibilityChange env w) a i := by
  obtain ⟨hc, him⟩ := h
  unfold drawImage
  rcases him with him | ⟨n, hn, h1⟩
  · simp [hc, him]
  · cases hi : a.image
    · simp [hc, hi, hn, Nat.not_lt.mpr h1]
    · simp [hc, hi]

theorem drawImage_of_guardRejects (env : Env) (w : World) (arg : Option EE) (i : Bool)
    (h : guardRejects arg = true) :
    drawImage env w arg i = (registerVisibilityChange env w, [], false) := by
  unfold drawImage
  match arg with
  | none => rfl
  | some e =>
    simp only [guardRejects] at h
    cases hc : e.canvas
    · simp [hc]
    · simp only [hc, Bool.not_true, Bool.false_or] at h
      cases hi : e.image
      · simp only [hi, Bool.not_false, Bool.true_and] at h
        cases hl : e.layers with
        | none => simp [hl] at h
        | some n =>
          simp only [hl] at h
          simp [hc, hi, hl, of_decide_eq_true h]
      · simp [hi] at h

/-! ### drawImageBody effect lemmas -/

theorem drawImageBody_enabledElements (env : Env) (w : World) (a : EE) (i : Bool) :
    (drawImageBody env w a i).1.enabledElements =
      if i then alUpd w.enabledElements a.element (fun d => { d with invalid := true })
      else w.enabledElements := by
  unfold drawImageBody
  cases i <;> cases hr : w.rafId <;> simp [hr]

theorem drawImageBody_find_reg_self (env : Env) (w : World) (a : EE) (i : Bool)
    (d : EEData) (hd : alFind w.enabledElements a.element = some d) :
    alFind (drawImageBody env w a i).1.enabledElements a.element
      = some { d with invalid := d.invalid || i } := by
  rw [drawImageBody_enabledElements]
  cases i
  · simp [hd]
  · simp [alFind_alUpd_self, hd]

theorem drawImageBody_elementsDrawMap (env : Env) (w : World) (a : EE) (i : Bool) :
    (drawImageBody env w a i).1.elementsDrawMap =
      alUpd (if (alFind w.elementsDrawMap a.element).isSome then w.elementsDrawMap
        else w.elementsDrawMap ++ [(a.element, { needsRedraw := false, callbacks := [] })])
        a.element (fun en => { en with needsRedraw := true }) := by
  unfold drawImageBody
  cases i <;> cases hr : w.rafId <;> simp [hr]

theorem drawImageBody_rafStopTime (env : Env) (w : World) (a : EE) (i : Bool) :
    (drawImageBody env w a i).1.rafStopTime = some (env.now + rafStopMaxTime) := by
  unfold drawImageBody
  cases i <;> cases hr : w.rafId <;> simp [hr]

theorem drawImageBody_rafId_isSome (env : Env) (w : World) (a : EE) (i : Bool) :
    (drawImageBody env w a i).1.rafId.isSome = true := by
  unfold drawImageBody
  cases i <;> cases hr : w.rafId <;> simp [hr]

theorem mem_keys_of_alFind_some {β : Type} {m : List (Nat × β)} {k : Nat} {v : β}
    (h : alFind m k = some v) : k ∈ m.map Prod.fst := by
  by_contra hk
  rw [← alFind_none_iff] at hk
  rw [hk] at h
  exact Option.noConfusion h

theorem drawImageBody_find_map_of_some (env : Env) (w : World) (a : EE) (i : Bool)
    (en : Entry) (hd : alFind w.elementsDrawMap a.element = some en) :
    alFind (drawImageBody env w a i).1.elementsDrawMap a.element
      = some { en with needsRedraw := true } := by
  rw [drawImageBody_elementsDrawMap]
  simp [hd, alFind_alUpd_self]

theorem drawImageBody_find_map_of_none (env : Env) (w : World) (a : EE) (i : Bool)
    (hd : alFind w.elementsDrawMap a.element = none) :
    alFind (drawImageBody env w a i).1.elementsDrawMap a.element
      = some { needsRedraw := true, callbacks := [] } := by
  rw [drawImageBody_elementsDrawMap]
  simp only [hd, Option.isSome_none, Bool.false_eq_true, if_false]
  rw [alFind_alUpd_self, alFind_append_of_none _ _ _ hd]
  simp [alFind]

theorem drawImageBody_keys_nodup (env : Env) (w : World) (a : EE) (i : Bool)
    (hnd : (w.elementsDrawMap.map Prod.fst).Nodup) :
    ((drawImageBody env w a i).1.elementsDrawMap.map Prod.fst).Nodup := by
  rw [drawImageBody_elementsDrawMap, alUpd_keys]
  by_cases hs : (alFind w.elementsDrawMap a.element).isSome
  · simpa [hs] using hnd
  · have hnone : alFind w.elementsDrawMap a.element = none := by
      cases h : alFind w.elementsDrawMap a.element
      · rfl
      · rw [h] at hs
        simp at hs
    have hmem : a.element ∉ w.elementsDrawMap.map Prod.fst :=
      (alFind_none_iff _ _).mp hnone
    simp only [hs, if_false]
    simp [List.nodup_append, hnd, hmem]

/-- Running a sequence of guard-passing `drawImage` calls that all target
element `e` accumulates the invalidation flags with boolean-or on the
registry entry, keeps `e` dirty, and preserves key uniqueness. -/
theorem drawImage_fold_inv (env : Env) (e : Nat) (d0 : EEData)
    (calls : List (EE × Bool))
    (hcalls : ∀ c ∈ calls, c.1.element = e ∧ guardPasses c.1) :
    ∀ (w : World) (b : Bool),
    alFind w.enabledElements e = some { d0 with invalid := b } →
    (∃ en, alFind w.elementsDrawMap e = some en ∧ en.needsRedraw = true) →
    (w.elementsDrawMap.map Prod.fst).Nodup →
    (alFind (calls.foldl (fun wa c => (drawImage env wa (some c.1) c.2).1) w).enabledElements e
        = some { d0 with invalid := b || calls.any (fun c => c.2) }
      ∧ (∃ en, alFind (calls.foldl (fun wa c => (drawImage env wa (some c.1) c.2).1) w).elementsDrawMap e
          = some en ∧ en.needsRedraw = true)
      ∧ ((calls.foldl (fun wa c => (drawImage env wa (some c.1) c.2).1) w).elementsDrawMap.map Prod.fst).Nodup) := by
  induction calls with
  | nil => intro w b h1 h2 h3; simpa using ⟨h1, h2, h3⟩
  | cons c rest ih =>
    intro w b h1 h2 h3
    obtain ⟨hel, hgp⟩ := hcalls c (List.mem_cons_self c rest)
    have hrest : ∀ x ∈ rest, x.1.element = e ∧ guardPasses x.1 := by
      intro x hx
      exact hcalls x (List.mem_cons_of_mem c hx)
    obtain ⟨en, hen, hdirty⟩ := h2
    have hreg' : alFind (drawImage env w (some c.1) c.2).1.enabledElements e
        = some { d0 with invalid := b || c.2 } := by
      rw [drawImage_of_guardPasses env w c.1 c.2 hgp]
      have h1' : alFind (registerVisibilityChange env w).enabledElements c.1.element
          = some { d0 with invalid := b } := by
        rw [regVis_enabledElements, hel]
        exact h1
      have hh := drawImageBody_find_reg_self env (registerVisibilityChange env w) c.1 c.2
        { d0 with invalid := b } h1'
      rw [hel] at hh
      exact hh
    have hmap' : ∃ en2, alFind (drawImage env w (some c.1) c.2).1.elementsDrawMap e
        = some en2 ∧ en2.needsRedraw = true := by
      refine ⟨{ en with needsRedraw := true }, ?_, rfl⟩
      rw [drawImage_of_guardPasses env w c.1 c.2 hgp]
      have hen' : alFind (registerVisibilityChange env w).elementsDrawMap c.1.element
          = some en := by
        rw [regVis_elementsDrawMap, hel]
        exact hen
      have hh := drawImageBody_find_map_of_some env (registerVisibilityChange env w) c.1 c.2
        en hen'
      rw [hel] at hh
      exact hh
    have hnd' : ((drawImage env w (some c.1) c.2).1.elementsDrawMap.map Prod.fst).Nodup := by
      rw [drawImage_of_guardPasses env w c.1 c.2 hgp]
      exact drawImageBody_keys_nodup env (registerVisibilityChange env w) c.1 c.2
        (by rw [regVis_elementsDrawMap]; exact h3)
    have hmain := ih hrest (drawImage env w (some c.1) c.2).1 (b || c.2) hreg' hmap' hnd'
    simp only [List.foldl_cons, List.any_cons]
    rw [← Bool.or_assoc]
    exact hmain

/-! ### Guard trichotomy and callback-loop lemmas -/

theorem drawImage_of_throwCase (env : Env) (w : World) (e : EE) (i : Bool)
    (hc : e.canvas = true) (hi : e.image = false) (hl : e.layers = none) :
    drawImage env w (some e) i = (registerVisibilityChange env w, [], true) := by
  unfold drawImage
  simp [hc, hi, hl]

theorem guard_trichotomy (arg : Option EE) :
    guardRejects arg = true
    ∨ (∃ e, arg = some e ∧ guardPasses e)
    ∨ (∃ e, arg = some e ∧ e.canvas = true ∧ e.image = false ∧ e.layers = none) := by
  match arg with
  | none => left; rfl
  | some e =>
    cases hc : e.canvas
    · left
      simp [guardRejects, hc]
    · cases hi : e.image
      · cases hl : e.layers with
        | none =>
          right; right
          exact ⟨e, rfl, hc, hi, hl⟩
        | some n =>
          by_cases hn : n < 1
          · left
            simp [guardRejects, hc, hi, hl, hn]
          · right; left
            exact ⟨e, rfl, hc, Or.inr ⟨n, hl, Nat.le_of_not_lt hn⟩⟩
      · right; left
        exact ⟨e, rfl, hc, Or.inl hi⟩

theorem runCallbacks_noRedraw (env : Env) (hnr : noRedrawEnv env) (el : Nat) :
    ∀ (cbs : List Nat) (w : World),
    runCallbacks env el cbs w = (w, cbs.map (Ev.cbInvoke el)) := by
  intro cbs
  induction cbs with
  | nil => intro w; rfl
  | cons cb rest ih =>
    intro w
    unfold runCallbacks
    cases hb : env.cbBeh cb with
    | ret => simp [hb, ih]
    | throwErr => simp [hb, ih]
    | redraw a i => exact absurd hb (hnr cb a i)

/-! ### processEntry characterizations -/

theorem processEntry_of_no_entry (env : Env) (w : World) (el : Nat)
    (h : alFind w.elementsDrawMap el = none) :
    processEntry env w el = (w, [], false) := by
  unfold processEntry
  rw [h]

theorem processEntry_of_clean (env : Env) (w : World) (el : Nat) (en : Entry)
    (h : alFind w.elementsDrawMap el = some en) (hc : en.needsRedraw = false) :
    processEntry env w el = (w, [], false) := by
  unfold processEntry
  rw [h]
  simp [hc]

theorem processEntry_of_unresolvable (env : Env) (w : World) (el : Nat) (en : Entry)
    (h : alFind w.elementsDrawMap el = some en) (hd : en.needsRedraw = true)
    (hr : alFind w.enabledElements el = none) :
    processEntry env w el = (w, [], false) := by
  unfold processEntry
  rw [h]
  simp [hd, hr]

theorem processEntry_of_renderThrows (env : Env) (w : World) (el : Nat) (en : Entry)
    (d : EEData) (h : alFind w.elementsDrawMap el = some en) (hd : en.needsRedraw = true)
    (hr : alFind w.enabledElements el = some d) (ht : env.renderThrows el = true) :
    processEntry env w el = (w, [Ev.preRender el], true) := by
  unfold processEntry
  rw [h]
  simp [hd, hr, ht]

theorem processEntry_success (env : Env) (w : World) (el : Nat) (en : Entry) (d : EEData)
    (hnr : noRedrawEnv env)
    (h : alFind w.elementsDrawMap el = some en) (hd : en.needsRedraw = true)
    (hr : alFind w.enabledElements el = some d) (ht : env.renderThrows el = false) :
    processEntry env w el =
      ((if en.callbacks.isEmpty then clearDirty w el
        else { clearDirty w el with rafStopTime := some (env.now + rafStopMaxTime) }),
       Ev.preRender el :: Ev.render el d.invalid :: en.callbacks.map (Ev.cbInvoke el),
       false) := by
  unfold processEntry
  rw [h]
  simp only [hd, hr, ht, Bool.not_true, Bool.false_eq_true, if_false]
  rw [runCallbacks_noRedraw env hnr el]
  cases hcb : en.callbacks.isEmpty
  · simp [hcb, clearDirty]
  · have : en.callbacks = [] := List.isEmpty_iff.mp hcb
    simp [hcb, this, clearDirty]

/-! ### Event-count lemmas -/

@[simp] theorem countRender_nil (e : Nat) : countRender [] e = 0 := rfl

@[simp] theorem countRender_append (l1 l2 : List Ev) (e : Nat) :
    countRender (l1 ++ l2) e = countRender l1 e + countRender l2 e := by
  simp [countRender, List.countP_append]

@[simp] theorem countRender_cons_pre (x : Nat) (l : List Ev) (e : Nat) :
    countRender (Ev.preRender x :: l) e = countRender l e := by
  simp [countRender, List.countP_cons]

@[simp] theorem countRender_cons_cb (x c : Nat) (l : List Ev) (e : Nat) :
    countRender (Ev.cbInvoke x c :: l) e = countRender l e := by
  simp [countRender, List.countP_cons]

@[simp] theorem countRender_cons_arm (x : Nat) (l : List Ev) (e : Nat) :
    countRender (Ev.arm x :: l) e = countRender l e := by
  simp [countRender, List.countP_cons]

@[simp] theorem countRender_cons_cancel (x : Nat) (l : List Ev) (e : Nat) :
    countRender (Ev.cancel x :: l) e = countRender l e := by
  simp [countRender, List.countP_cons]

theorem countRender_cons_render (x : Nat) (b : Bool) (l : List Ev) (e : Nat) :
    countRender (Ev.render x b :: l) e
      = countRender l e + (if x = e then 1 else 0) := by
  by_cases h : x = e <;> simp [countRender, List.countP_cons, h]

@[simp] theorem countRender_map_cbInvoke (cbs : List Nat) (el e : Nat) :
    countRender (cbs.map (Ev.cbInvoke el)) e = 0 := by
  induction cbs with
  | nil => rfl
  | cons c rest ih => simp [ih]

@[simp] theorem countCb_nil (e cb : Nat) : countCb [] e cb = 0 := rfl

@[simp] theorem countCb_append (l1 l2 : List Ev) (e cb : Nat) :
    countCb (l1 ++ l2) e cb = countCb l1 e cb + countCb l2 e cb := by
  simp [countCb, List.countP_append]

@[simp] theorem countCb_cons_pre (x : Nat) (l : List Ev) (e cb : Nat) :
    countCb (Ev.preRender x :: l) e cb = countCb l e cb := by
  simp [countCb, List.countP_cons]

@[simp] theorem countCb_cons_render (x : Nat) (b : Bool) (l : List Ev) (e cb : Nat) :
    countCb (Ev.render x b :: l) e cb = countCb l e cb := by
  simp [countCb, List.countP_cons]

@[simp] theorem countCb_cons_arm (x : Nat) (l : List Ev) (e cb : Nat) :
    countCb (Ev.arm x :: l) e cb = countCb l e cb := by
  simp [countCb, List.countP_cons]

@[simp] theorem countCb_cons_cancel (x : Nat) (l : List Ev) (e cb : Nat) :
    countCb (Ev.cancel x :: l) e cb = countCb l e cb := by
  simp [countCb, List.countP_cons]

theorem countCb_cons_cb (x c : Nat) (l : List Ev) (e cb : Nat) :
    countCb (Ev.cbInvoke x c :: l) e cb
      = countCb l e cb + (if x = e ∧ c = cb then 1 else 0) := by
  by_cases hx : x = e
  · by_cases hc : c = cb <;> simp [countCb, List.countP_cons, hx, hc]
  · simp [countCb, List.countP_cons, hx]

theorem countCb_map_cbInvoke_self (cbs : List Nat) (el cb : Nat) :
    countCb (cbs.map (Ev.cbInvoke el)) el cb = cbs.count cb := by
  induction cbs with
  | nil => rfl
  | cons c rest ih =>
    by_cases hc : c = cb
    · simp [countCb_cons_cb, ih, hc, List.count_cons]
    · simp [countCb_cons_cb, ih, hc, List.count_cons]

theorem countCb_map_cbInvoke_ne (cbs : List Nat) (el e cb : Nat) (h : el ≠ e) :
    countCb (cbs.map (Ev.cbInvoke el)) e cb = 0 := by
  induction cbs with
  | nil => rfl
  | cons c rest ih => simp [countCb_cons_cb, ih, h]

/-! ### processEntry preservation lemmas (callbacks that do not redraw) -/

theorem processEntry_enabledElements (env : Env) (w : World) (el : Nat)
    (hnr : noRedrawEnv env) :
    (processEntry env w el).1.enabledElements = w.enabledElements := by
  cases hfe : alFind w.elementsDrawMap el with
  | none => rw [processEntry_of_no_entry env w el hfe]
  | some en =>
    cases hd : en.needsRedraw with
    | false => rw [processEntry_of_clean env w el en hfe hd]
    | true =>
      cases hr : alFind w.enabledElements el with
      | none => rw [processEntry_of_unresolvable env w el en hfe hd hr]
      | some d =>
        cases ht : env.renderThrows el with
        | true => rw [processEntry_of_renderThrows env w el en d hfe hd hr ht]
        | false =>
          rw [processEntry_success env w el en d hnr hfe hd hr ht]
          cases hcb : en.callbacks.isEmpty <;> simp [clearDirty]

theorem processEntry_find_map_ne (env : Env) (w : World) (el e : Nat)
    (hnr : noRedrawEnv env) (hne : el ≠ e) :
    alFind (processEntry env w el).1.elementsDrawMap e
      = alFind w.elementsDrawMap e := by
  cases hfe : alFind w.elementsDrawMap el with
  | none => rw [processEntry_of_no_entry env w el hfe]
  | some en =>
    cases hd : en.needsRedraw with
    | false => rw [processEntry_of_clean env w el en hfe hd]
    | true =>
      cases hr : alFind w.enabledElements el with
      | none => rw [processEntry_of_unresolvable env w el en hfe hd hr]
      | some d =>
        cases ht : env.renderThrows el with
        | true => rw [processEntry_of_renderThrows env w el en d hfe hd hr ht]
        | false =>
          rw [processEntry_success env w el en d hnr hfe hd hr ht]
          cases hcb : en.callbacks.isEmpty <;>
            simp [clearDirty, alFind_alUpd_ne _ _ _ _ hne]

theorem processEntry_countRender_ne (env : Env) (w : World) (el e : Nat)
    (hnr : noRedrawEnv env) (hne : el ≠ e) :
    countRender (processEntry env w el).2.1 e = 0 := by
  cases hfe : alFind w.elementsDrawMap el with
  | none => rw [processEntry_of_no_entry env w el hfe]; rfl
  | some en =>
    cases hd : en.needsRedraw with
    | false => rw [processEntry_of_clean env w el en hfe hd]; rfl
    | true =>
      cases hr : alFind w.enabledElements el with
      | none => rw [processEntry_of_unresolvable env w el en hfe hd hr]; rfl
      | some d =>
        cases ht : env.renderThrows el with
        | true => rw [processEntry_of_renderThrows env w el en d hfe hd hr ht]; simp
        | false =>
          rw [processEntry_success env w el en d hnr hfe hd hr ht]
          simp [countRender_cons_render, hne]

theorem processEntry_countCb_ne (env : Env) (w : World) (el e cb : Nat)
    (hnr : noRedrawEnv env) (hne : el ≠ e) :
    countCb (processEntry env w el).2.1 e cb = 0 := by
  cases hfe : alFind w.elementsDrawMap el with
  | none => rw [processEntry_of_no_entry env w el hfe]; rfl
  | some en =>
    cases hd : en.needsRedraw with
    | false => rw [processEntry_of_clean env w el en hfe hd]; rfl
    | true =>
      cases hr : alFind w.enabledElements el with
      | none => rw [processEntry_of_unresolvable env w el en hfe hd hr]; rfl
      | some d =>
        cases ht : env.renderThrows el with
        | true => rw [processEntry_of_renderThrows env w el en d hfe hd hr ht]; simp
        | false =>
          rw [processEntry_success env w el en d hnr hfe hd hr ht]
          simp [countCb_map_cbInvoke_ne _ _ _ _ hne]

theorem processEntry_noThrow (env : Env) (w : World) (el : Nat)
    (ht : env.renderThrows el = false) :
    (processEntry env w el).2.2 = false := by
  unfold processEntry
  cases hfe : alFind w.elementsDrawMap el with
  | none => rfl
  | some en =>
    cases hd : en.needsRedraw with
    | false => simp [hd]
    | true =>
      cases hr : alFind w.enabledElements el with
      | none => simp [hd, hr]
      | some d =>
        simp only [hd, hr, ht, Bool.not_true, Bool.false_eq_true, if_false]
        cases hcb : en.callbacks.isEmpty <;> simp [hcb]

theorem processEntry_rafStop_pres (env : Env) (w : World) (el : Nat)
    (hnr : noRedrawEnv env) :
    (processEntry env w el).1.rafStopTime = w.rafStopTime
    ∨ (processEntry env w el).1.rafStopTime = some (env.now + rafStopMaxTime) := by
  cases hfe : alFind w.elementsDrawMap el with
  | none => rw [processEntry_of_no_entry env w el hfe]; left; rfl
  | some en =>
    cases hd : en.needsRedraw with
    | false => rw [processEntry_of_clean env w el en hfe hd]; left; rfl
    | true =>
      cases hr : alFind w.enabledElements el with
      | none => rw [processEntry_of_unresolvable env w el en hfe hd hr]; left; rfl
      | some d =>
        cases ht : env.renderThrows el with
        | true => rw [processEntry_of_renderThrows env w el en d hfe hd hr ht]; left; rfl
        | false =>
          rw [processEntry_success env w el en d hnr hfe hd hr ht]
          cases hcb : en.callbacks.isEmpty
          · right; simp [hcb]
          · left; simp [hcb, clearDirty]

theorem processEntry_of_unres_any (env : Env) (w : World) (el : Nat)
    (hr : alFind w.enabledElements el = none) :
    processEntry env w el = (w, [], false) := by
  unfold processEntry
  cases hfe : alFind w.elementsDrawMap el with
  | none => rfl
  | some en =>
    cases hd : en.needsRedraw with
    | false => simp [hd]
    | true => simp [hd, hr]

/-! ### stepLoop lemmas -/

theorem stepLoop_noThrow (env : Env) (hnt : noRenderThrows env) :
    ∀ (keys : List Nat) (w : World), (stepLoop env keys w).2.2 = false := by
  intro keys
  induction keys with
  | nil => intro w; rfl
  | cons k rest ih =>
    intro w
    unfold stepLoop
    simp [processEntry_noThrow env w k (hnt k), ih]

theorem stepLoop_enabledElements (env : Env) (hnr : noRedrawEnv env) :
    ∀ (keys : List Nat) (w : World),
    (stepLoop env keys w).1.enabledElements = w.enabledElements := by
  intro keys
  induction keys with
  | nil => intro w; rfl
  | cons k rest ih =>
    intro w
    unfold stepLoop
    cases hth : (processEntry env w k).2.2
    · simp [hth, ih, processEntry_enabledElements env w k hnr]
    · simp [hth, processEntry_enabledElements env w k hnr]

theorem stepLoop_countRender_notmem (env : Env) (hnr : noRedrawEnv env) (e : Nat) :
    ∀ (keys : List Nat) (w : World), e ∉ keys →
    countRender (stepLoop env keys w).2.1 e = 0 := by
  intro keys
  induction keys with
  | nil => intro w _; rfl
  | cons k rest ih =>
    intro w hmem
    have hk : k ≠ e := fun h => hmem (h ▸ List.mem_cons_self k rest)
    have hrest : e ∉ rest := fun h => hmem (List.mem_cons_of_mem k h)
    unfold stepLoop
    cases hth : (processEntry env w k).2.2
    · simp [hth, ih _ hrest, processEntry_countRender_ne env w k e hnr hk]
    · simp [hth, processEntry_countRender_ne env w k e hnr hk]

theorem stepLoop_countCb_notmem (env : Env) (hnr : noRedrawEnv env) (e cb : Nat) :
    ∀ (keys : List Nat) (w : World), e ∉ keys →
    countCb (stepLoop env keys w).2.1 e cb = 0 := by
  intro keys
  induction keys with
  | nil => intro w _; rfl
  | cons k rest ih =>
    intro w hmem
    have hk : k ≠ e := fun h => hmem (h ▸ List.mem_cons_self k rest)
    have hrest : e ∉ rest := fun h => hmem (List.mem_cons_of_mem k h)
    unfold stepLoop
    cases hth : (processEntry env w k).2.2
    · simp [hth, ih _ hrest, processEntry_countCb_ne env w k e cb hnr hk]
    · simp [hth, processEntry_countCb_ne env w k e cb hnr hk]

theorem stepLoop_rafStop_pres (env : Env) (hnr : noRedrawEnv env) :
    ∀ (keys : List Nat) (w : World),
    (stepLoop env keys w).1.rafStopTime = w.rafStopTime
    ∨ (stepLoop env keys w).1.rafStopTime = some (env.now + rafStopMaxTime) := by
  intro keys
  induction keys with
  | nil => intro w; left; rfl
  | cons k rest ih =>
    intro w
    unfold stepLoop
    cases hth : (processEntry env w k).2.2
    · rcases ih (processEntry env w k).1 with hrec | hrec
      · rcases processEntry_rafStop_pres env w k hnr with hpe | hpe
        · left; simp [hth, hrec, hpe]
        · right; simp [hth, hrec, hpe]
      · right; simp [hth, hrec]
    · rcases processEntry_rafStop_pres env w k hnr with hpe | hpe
      · left; simp [hth, hpe]
      · right; simp [hth, hpe]

/-- Core drain lemma: when the key list visits `e` exactly once (keys are
nodup), `e` is dirty and resolvable, no render throws and no callback
issues a redraw, then the drain renders `e` exactly once with the
registry's invalidation flag, invokes each of its callbacks as often as it
occurs in the callback set, and — when the callback set is non-empty —
leaves the idle deadline pushed to `now + rafStopMaxTime`. -/
theorem stepLoop_processes (env : Env) (hnr : noRedrawEnv env)
    (hnt : noRenderThrows env) (e : Nat) :
    ∀ (keys : List Nat) (w : World) (en : Entry) (d : EEData),
    e ∈ keys → keys.Nodup →
    alFind w.elementsDrawMap e = some en → en.needsRedraw = true →
    alFind w.enabledElements e = some d →
    (countRender (stepLoop env keys w).2.1 e = 1
     ∧ Ev.render e d.invalid ∈ (stepLoop env keys w).2.1
     ∧ (∀ cb, countCb (stepLoop env keys w).2.1 e cb = en.callbacks.count cb)
     ∧ (en.callbacks.isEmpty = false →
        (stepLoop env keys w).1.rafStopTime = some (env.now + rafStopMaxTime))) := by
  intro keys
  induction keys with
  | nil =>
    intro w en d hmem
    exact absurd hmem (List.not_mem_nil e)
  | cons k rest ih =>
    intro w en d hmem hnd hfe hdirty hreg
    obtain ⟨hknotin, hndrest⟩ := List.nodup_cons.mp hnd
    by_cases hk : k = e
    · subst hk
      unfold stepLoop
      rw [processEntry_success env w k en d hnr hfe hdirty hreg (hnt k)]
      simp only [Bool.false_eq_true, if_false]
      have hcr := fun wx => stepLoop_countRender_notmem env hnr k rest wx hknotin
      have hmem2 : Ev.render k d.invalid ∈
          (Ev.preRender k :: Ev.render k d.invalid :: en.callbacks.map (Ev.cbInvoke k)) := by
        simp
      refine ⟨?_, ?_, ?_, ?_⟩
      · simp [countRender_cons_render, hcr]
      · simp
      · intro cb
        have hcc := fun wx => stepLoop_countCb_notmem env hnr k cb rest wx hknotin
        simp [countCb_cons_cb, countCb_map_cbInvoke_self, hcc]
      · intro hcb
        rcases stepLoop_rafStop_pres env hnr rest
            (if en.callbacks.isEmpty then clearDirty w k
             else { clearDirty w k with rafStopTime := some (env.now + rafStopMaxTime) })
          with hrec | hrec
        · rw [hrec]
          simp [hcb]
        · exact hrec
    · have hkne : k ≠ e := hk
      have hmemrest : e ∈ rest := by
        rcases List.mem_cons.mp hmem with h | h
        · exact absurd h.symm hkne
        · exact h
      unfold stepLoop
      have hth := processEntry_noThrow env w k (hnt k)
      have hfe1 : alFind (processEntry env w k).1.elementsDrawMap e = some en := by
        rw [processEntry_find_map_ne env w k e hnr hkne]
        exact hfe
      have hreg1 : alFind (processEntry env w k).1.enabledElements e = some d := by
        rw [processEntry_enabledElements env w k hnr]
        exact hreg
      have hrec := ih (processEntry env w k).1 en d hmemrest hndrest hfe1 hdirty hreg1
      refine ⟨?_, ?_, ?_, ?_⟩
      · simp [hth, processEntry_countRender_ne env w k e hnr hkne, hrec.1]
      · simp only [hth, Bool.false_eq_true, if_false]
        simp only [List.mem_append]
        exact Or.inr hrec.2.1
      · intro cb
        simp [hth, processEntry_countCb_ne env w k e cb hnr hkne, hrec.2.2.1 cb]
      · intro hcb
        simp only [hth, Bool.false_eq_true, if_false]
        exact hrec.2.2.2 hcb

/-- An entry whose surface does not resolve is never modified and never
rendered during a drain: it keeps its dirty flag for later ticks. -/
theorem stepLoop_unresolvable (env : Env) (hnr : noRedrawEnv env) (e : Nat) :
    ∀ (keys : List Nat) (w : World), alFind w.enabledElements e = none →
    alFind (stepLoop env keys w).1.elementsDrawMap e = alFind w.elementsDrawMap e
    ∧ countRender (stepLoop env keys w).2.1 e = 0 := by
  intro keys
  induction keys with
  | nil => intro w _; exact ⟨rfl, rfl⟩
  | cons k rest ih =>
    intro w hreg
    unfold stepLoop
    by_cases hk : k = e
    · subst hk
      rw [processEntry_of_unres_any env w k hreg]
      have hrec := ih w hreg
      simp only [Bool.false_eq_true, if_false]
      exact ⟨hrec.1, by simp [hrec.2]⟩
    · cases hth : (processEntry env w k).2.2
      · have hreg1 : alFind (processEntry env w k).1.enabledElements e = none := by
          rw [processEntry_enabledElements env w k hnr]
          exact hreg
        have hrec := ih (processEntry env w k).1 hreg1
        constructor
        · simp only [hth, Bool.false_eq_true, if_false]
          rw [hrec.1, processEntry_find_map_ne env w k e hnr hk]
        · simp [hth, hrec.2, processEntry_countRender_ne env w k e hnr hk]
      · constructor
        · simp only [hth, if_true]
          exact processEntry_find_map_ne env w k e hnr hk
        · simp [hth, processEntry_countRender_ne env w k e hnr hk]

/-! ### step tail lemmas -/

/-- When no render throws, `step` is the drain followed by a tail that
only arms or cancels: it renders nothing, invokes nothing, leaves the
table and the idle deadline as the drain left them, and does not throw. -/
theorem step_tail_split (env : Env) (w : World) (hnt : noRenderThrows env) :
    ∃ tl, (step env w).2.1 = (stepLoop env (w.elementsDrawMap.map Prod.fst) w).2.1 ++ tl
      ∧ (∀ e, countRender tl e = 0)
      ∧ (∀ e cb, countCb tl e cb = 0)
      ∧ (step env w).1.elementsDrawMap
          = (stepLoop env (w.elementsDrawMap.map Prod.fst) w).1.elementsDrawMap
      ∧ (step env w).1.rafStopTime
          = (stepLoop env (w.elementsDrawMap.map Prod.fst) w).1.rafStopTime
      ∧ (step env w).2.2 = false := by
  have hth := stepLoop_noThrow env hnt (w.elementsDrawMap.map Prod.fst) w
  unfold step
  rcases hsl : stepLoop env (w.elementsDrawMap.map Prod.fst) w with ⟨w1, l1, th⟩
  rw [hsl] at hth
  simp only at hth
  subst hth
  simp only [Bool.false_eq_true, if_false]
  cases hrst : w1.rafStopTime with
  | none =>
    unfold stopRaf
    cases hraf : w1.rafId with
    | none =>
      refine ⟨[], ?_, fun e => rfl, fun e cb => rfl, ?_, ?_, ?_⟩ <;> simp [hrst]
    | some h =>
      refine ⟨[Ev.cancel h], ?_, fun e => ?_, fun e cb => ?_, ?_, ?_, ?_⟩ <;> simp [hrst]
  | some t =>
    by_cases hlt : env.now < t
    · simp only [hlt, if_true]
      refine ⟨[Ev.arm w1.nextId], ?_, fun e => ?_, fun e cb => ?_, ?_, ?_, ?_⟩ <;> simp [hrst]
    · simp only [hlt, if_false]
      unfold stopRaf
      cases hraf : w1.rafId with
      | none =>
        refine ⟨[], ?_, fun e => rfl, fun e cb => rfl, ?_, ?_, ?_⟩ <;> simp [hrst]
      | some h =>
        refine ⟨[Ev.cancel h], ?_, fun e => ?_, fun e cb => ?_, ?_, ?_, ?_⟩ <;> simp [hrst]

/-! ### Claim theorems -/

/-- Claim C1: for every sequence of `drawImage` (requestRedraw) calls
targeting the same surface issued between two ticks — the surface being
resolvable, its invalid flag clear at the start of the window, callbacks
issuing no further redraws and the render routine not throwing — the
next invocation of `step` performs exactly one
`drawImageSync` call for that surface, and the invalidate flag passed to
it is true iff at least one call of the window passed `invalidated =
true`. -/
theorem c1_window_coalesces_to_single_render (env : Env) (w0 : World) (e : Nat)
    (d0 : EEData) (calls : List (EE × Bool))
    (hnr : noRedrawEnv env) (hnt : noRenderThrows env)
    (hreg : alFind w0.enabledElements e = some d0)
    (hinv : d0.invalid = false)
    (hnd : (w0.elementsDrawMap.map Prod.fst).Nodup)
    (hne : calls ≠ [])
    (hcalls : ∀ c ∈ calls, c.1.element = e ∧ guardPasses c.1) :
    countRender (step env (calls.foldl (fun wa c =>
        (drawImage env wa (some c.1) c.2).1) w0)).2.1 e = 1
    ∧ Ev.render e (calls.any (fun c => c.2))
        ∈ (step env (calls.foldl (fun wa c => (drawImage env wa (some c.1) c.2).1) w0)).2.1 := by
  match calls with
  | [] => exact absurd rfl hne
  | c :: rest =>
    obtain ⟨hel, hgp⟩ := hcalls c (List.mem_cons_self c rest)
    have hrest : ∀ x ∈ rest, x.1.element = e ∧ guardPasses x.1 :=
      fun x hx => hcalls x (List.mem_cons_of_mem c hx)
    have hregA : alFind (drawImage env w0 (some c.1) c.2).1.enabledElements e
        = some { d0 with invalid := c.2 } := by
      rw [drawImage_of_guardPasses env w0 c.1 c.2 hgp]
      have h0 : alFind (registerVisibilityChange env w0).enabledElements c.1.element
          = some d0 := by
        rw [regVis_enabledElements, hel]
        exact hreg
      have hh := drawImageBody_find_reg_self env (registerVisibilityChange env w0) c.1 c.2 d0 h0
      rw [hel, hinv] at hh
      simpa using hh
    have hmapA : ∃ en, alFind (drawImage env w0 (some c.1) c.2).1.elementsDrawMap e
        = some en ∧ en.needsRedraw = true := by
      rw [drawImage_of_guardPasses env w0 c.1 c.2 hgp]
      cases hfe : alFind w0.elementsDrawMap e with
      | none =>
        refine ⟨{ needsRedraw := true, callbacks := [] }, ?_, rfl⟩
        have hh := drawImageBody_find_map_of_none env (registerVisibilityChange env w0) c.1 c.2
          (by rw [regVis_elementsDrawMap, hel]; exact hfe)
        rw [hel] at hh
        exact hh
      | some en =>
        refine ⟨{ en with needsRedraw := true }, ?_, rfl⟩
        have hh := drawImageBody_find_map_of_some env (registerVisibilityChange env w0) c.1 c.2
          en (by rw [regVis_elementsDrawMap, hel]; exact hfe)
        rw [hel] at hh
        exact hh
    have hndA : ((drawImage env w0 (some c.1) c.2).1.elementsDrawMap.map Prod.fst).Nodup := by
      rw [drawImage_of_guardPasses env w0 c.1 c.2 hgp]
      exact drawImageBody_keys_nodup env (registerVisibilityChange env w0) c.1 c.2
        (by rw [regVis_elementsDrawMap]; exact hnd)
    have hfold := drawImage_fold_inv env e d0 rest hrest
      (drawImage env w0 (some c.1) c.2).1 c.2 hregA hmapA hndA
    obtain ⟨hreg1, ⟨en1, hfind1, hdirty1⟩, hnd1⟩ := hfold
    have hmem : e ∈ ((rest.foldl (fun wa c => (drawImage env wa (some c.1) c.2).1)
        (drawImage env w0 (some c.1) c.2).1).elementsDrawMap.map Prod.fst) :=
      mem_keys_of_alFind_some hfind1
    have hS := stepLoop_processes env hnr hnt e
      ((rest.foldl (fun wa c => (drawImage env wa (some c.1) c.2).1)
        (drawImage env w0 (some c.1) c.2).1).elementsDrawMap.map Prod.fst)
      (rest.foldl (fun wa c => (drawImage env wa (some c.1) c.2).1)
        (drawImage env w0 (some c.1) c.2).1)
      en1 { d0 with invalid := c.2 || rest.any (fun x => x.2) }
      hmem hnd1 hfind1 hdirty1 hreg1
    obtain ⟨tl, hlog, hcr0, hcc0, _, _, _⟩ := step_tail_split env
      (rest.foldl (fun wa c => (drawImage env wa (some c.1) c.2).1)
        (drawImage env w0 (some c.1) c.2).1) hnt
    simp only [List.foldl_cons, List.any_cons]
    constructor
    · rw [hlog]
      simp [hS.1, hcr0]
    · rw [hlog]
      simp only [List.mem_append]
      exact Or.inl hS.2.1

/-- Witness for C1: the spec scenario `requestRedraw(S1, false)` then
`requestRedraw(S1, true)` before the next tick yields exactly one render
of surface 1, with the invalidate flag true. -/
theorem c1_window_coalesces_to_single_render_witness :
    countRender (step envRet ([(eeA, false), (eeA, true)].foldl (fun wa c =>
        (drawImage envRet wa (some c.1) c.2).1) wReg1)).2.1 1 = 1
    ∧ Ev.render 1 ([(eeA, false), (eeA, true)].any (fun c => c.2))
        ∈ (step envRet ([(eeA, false), (eeA, true)].foldl (fun wa c =>
            (drawImage envRet wa (some c.1) c.2).1) wReg1)).2.1 :=
  c1_window_coalesces_to_single_render envRet wReg1 1 dA [(eeA, false), (eeA, true)]
    (fun cb a i h => CbBeh.noConfusion h)
    (fun el => rfl)
    (by decide)
    rfl
    List.nodup_nil
    (fun h => List.noConfusion h)
    (by
      intro c hc
      rcases List.mem_cons.mp hc with h | h
      · subst h
        exact ⟨rfl, rfl, Or.inl rfl⟩
      · rcases List.mem_cons.mp h with h2 | h2
        · subst h2
          exact ⟨rfl, rfl, Or.inl rfl⟩
        · exact absurd h2 (List.not_mem_nil c))

/-! ### Arm-count lemmas and the stale-handle behaviour of the drain -/

@[simp] theorem countArm_nil : countArm [] = 0 := rfl

@[simp] theorem countArm_append (l1 l2 : List Ev) :
    countArm (l1 ++ l2) = countArm l1 + countArm l2 := by
  simp [countArm, List.countP_append]

@[simp] theorem countArm_cons_pre (x : Nat) (l : List Ev) :
    countArm (Ev.preRender x :: l) = countArm l := by
  simp [countArm, List.countP_cons]

@[simp] theorem countArm_cons_render (x : Nat) (b : Bool) (l : List Ev) :
    countArm (Ev.render x b :: l) = countArm l := by
  simp [countArm, List.countP_cons]

@[simp] theorem countArm_cons_cb (x c : Nat) (l : List Ev) :
    countArm (Ev.cbInvoke x c :: l) = countArm l := by
  simp [countArm, List.countP_cons]

@[simp] theorem countArm_cons_cancel (x : Nat) (l : List Ev) :
    countArm (Ev.cancel x :: l) = countArm l := by
  simp [countArm, List.countP_cons]

@[simp] theorem countArm_cons_arm (x : Nat) (l : List Ev) :
    countArm (Ev.arm x :: l) = countArm l + 1 := by
  simp [countArm, List.countP_cons]

theorem drawImageBody_rafId_of_some (env : Env) (w : World) (a : EE) (i : Bool)
    (hId : Nat) (h : w.rafId = some hId) :
    (drawImageBody env w a i).1.rafId = some hId
    ∧ (drawImageBody env w a i).2.1 = [] := by
  unfold drawImageBody
  cases i <;> simp [h]

theorem drawImage_rafId_of_some (env : Env) (w : World) (arg : Option EE) (i : Bool)
    (hId : Nat) (h : w.rafId = some hId) :
    (drawImage env w arg i).1.rafId = some hId
    ∧ (drawImage env w arg i).2.1 = [] := by
  rcases guard_trichotomy arg with hrej | ⟨e, rfl, hgp⟩ | ⟨e, rfl, hc, hi, hl⟩
  · rw [drawImage_of_guardRejects env w arg i hrej]
    exact ⟨by simp [h], rfl⟩
  · rw [drawImage_of_guardPasses env w e i hgp]
    exact drawImageBody_rafId_of_some env (registerVisibilityChange env w) e i hId
      (by simp [h])
  · rw [drawImage_of_throwCase env w e i hc hi hl]
    exact ⟨by simp [h], rfl⟩

theorem runCallbacks_rafId_of_some (env : Env) (el : Nat) (hId : Nat) :
    ∀ (cbs : List Nat) (w : World), w.rafId = some hId →
    (runCallbacks env el cbs w).1.rafId = some hId
    ∧ countArm (runCallbacks env el cbs w).2 = 0 := by
  intro cbs
  induction cbs with
  | nil => intro w h; exact ⟨h, rfl⟩
  | cons cb rest ih =>
    intro w h
    unfold runCallbacks
    cases hb : env.cbBeh cb with
    | ret => simpa using ih w h
    | throwErr => simpa using ih w h
    | redraw a i =>
      have hd := drawImage_rafId_of_some env w a i hId h
      have hr := ih (drawImage env w a i).1 hd.1
      simp [hd.2, hr.1, hr.2]

theorem processEntry_rafId_of_some (env : Env) (w : World) (el : Nat) (hId : Nat)
    (h : w.rafId = some hId) :
    (processEntry env w el).1.rafId = some hId
    ∧ countArm (processEntry env w el).2.1 = 0 := by
  unfold processEntry
  cases hfe : alFind w.elementsDrawMap el with
  | none => exact ⟨h, rfl⟩
  | some en =>
    cases hd : en.needsRedraw with
    | false => refine ⟨?_, ?_⟩ <;> simp [hd, h]
    | true =>
      cases hr : alFind w.enabledElements el with
      | none => refine ⟨?_, ?_⟩ <;> simp [hd, hr, h]
      | some d =>
        cases ht : env.renderThrows el with
        | true => refine ⟨?_, ?_⟩ <;> simp [hd, hr, ht, h]
        | false =>
          have hrc := runCallbacks_rafId_of_some env el hId en.callbacks
            (clearDirty w el) (by simpa [clearDirty] using h)
          simp only [clearDirty] at hrc
          cases hcb : en.callbacks.isEmpty
          · refine ⟨?_, ?_⟩ <;> simp [hd, hr, ht, hcb, hrc.1, hrc.2]
          · refine ⟨?_, ?_⟩ <;> simp [hd, hr, ht, hcb, h]
  
theorem stepLoop_rafId_of_some (env : Env) (hId : Nat) :
    ∀ (keys : List Nat) (w : World), w.rafId = some hId →
    (stepLoop env keys w).1.rafId = some hId
    ∧ countArm (stepLoop env keys w).2.1 = 0 := by
  intro keys
  induction keys with
  | nil => intro w h; exact ⟨h, rfl⟩
  | cons k rest ih =>
    intro w h
    unfold stepLoop
    have hpe := processEntry_rafId_of_some env w k hId h
    cases hth : (processEntry env w k).2.2
    · have hr := ih (processEntry env w k).1 hpe.1
      simp [hth, hpe.1, hpe.2, hr.1, hr.2]
    · simp [hth, hpe.1, hpe.2]

/-- Counterexample for C2: on a state where the tick fires with the stale
handle still recorded and the surface's callback issues a redraw during
the tick, the source `step` behaves observably differently from the
spec-described handler that clears the marker before processing: the
source emits a single `requestAnimationFrame` call (the end-of-tick
re-arm), while the clear-first handler would emit two (the callback's
redraw would arm a fresh request).  The claim that `step` clears `rafId`
before processing is therefore false. -/
theorem c2_counterexample :
    (step envCbRedraw wCb).2.1 ≠ (stepSpecClearFirst envCbRedraw wCb).2.1
    ∧ countArm (step envCbRedraw wCb).2.1 = 1
    ∧ countArm (stepSpecClearFirst envCbRedraw wCb).2.1 = 2 := by
  decide

/-- Claim C2 (amended): `step` does not clear `rafId` before processing;
the stale handle is retained for the whole drain, so a `drawImage` issued
during the tick — from inside a callback included — never arms a fresh
request (the drain makes no `requestAnimationFrame` call at all); such a
redraw is honoured instead through the end-of-tick re-arm. -/
theorem c2_step_keeps_stale_handle_during_drain (env : Env) (w : World) (hId : Nat)
    (hraf : w.rafId = some hId) :
    (stepLoop env (w.elementsDrawMap.map Prod.fst) w).1.rafId = some hId
    ∧ countArm (stepLoop env (w.elementsDrawMap.map Prod.fst) w).2.1 = 0 :=
  stepLoop_rafId_of_some env hId (w.elementsDrawMap.map Prod.fst) w hraf

/-- Witness for the amended C2 at the concrete redraw-from-callback
scenario: the drain keeps the stale handle 1 and arms nothing. -/
theorem c2_step_keeps_stale_handle_during_drain_witness :
    (stepLoop envCbRedraw (wCb.elementsDrawMap.map Prod.fst) wCb).1.rafId = some 1
    ∧ countArm (stepLoop envCbRedraw (wCb.elementsDrawMap.map Prod.fst) wCb).2.1 = 0 :=
  c2_step_keeps_stale_handle_during_drain envCbRedraw wCb 1 rfl

/-- Counterexample for C3: a dirty entry whose context lookup fails during
the tick is not left dirty-cleared as if rendered — after the tick its
dirty flag is still set (so it will be retried by later ticks, contrary to
the claim). -/
theorem c3_counterexample :
    ¬ dirtyAt (step envRet wUnres).1 1 = false := by
  decide

/-- Claim C3 (amended): during a tick, a dirty entry whose context
resolution fails is skipped silently — nothing is rendered for it and the
tick neither aborts nor touches the entry — but it is left DIRTY, so it
is retried on subsequent ticks; other dirty resolvable surfaces are still
rendered in the same tick. -/
theorem c3_unresolvable_entry_stays_dirty (env : Env) (w : World) (e e2 : Nat)
    (en en2 : Entry) (d2 : EEData)
    (hnr : noRedrawEnv env) (hnt : noRenderThrows env)
    (hnd : (w.elementsDrawMap.map Prod.fst).Nodup)
    (hun : alFind w.enabledElements e = none)
    (hfe : alFind w.elementsDrawMap e = some en) (hdirty : en.needsRedraw = true)
    (hfe2 : alFind w.elementsDrawMap e2 = some en2) (hdirty2 : en2.needsRedraw = true)
    (hreg2 : alFind w.enabledElements e2 = some d2) :
    alFind (step env w).1.elementsDrawMap e = some en
    ∧ countRender (step env w).2.1 e = 0
    ∧ (step env w).2.2 = false
    ∧ countRender (step env w).2.1 e2 = 1 := by
  have hU := stepLoop_unresolvable env hnr e (w.elementsDrawMap.map Prod.fst) w hun
  obtain ⟨tl, hlog, hcr0, hcc0, hmap, hrst, hth⟩ := step_tail_split env w hnt
  have hmem2 : e2 ∈ w.elementsDrawMap.map Prod.fst := mem_keys_of_alFind_some hfe2
  have hS := stepLoop_processes env hnr hnt e2 (w.elementsDrawMap.map Prod.fst) w
    en2 d2 hmem2 hnd hfe2 hdirty2 hreg2
  refine ⟨?_, ?_, hth, ?_⟩
  · rw [hmap, hU.1, hfe]
  · rw [hlog]
    simp [hU.2, hcr0]
  · rw [hlog]
    simp [hS.1, hcr0]

/-- Witness for the amended C3: surface 1 (torn down) stays dirty and is
not rendered, the tick completes, and surface 2 is rendered once. -/
theorem c3_unresolvable_entry_stays_dirty_witness :
    alFind (step envRet wUnres2).1.elementsDrawMap 1
      = some { needsRedraw := true, callbacks := [] }
    ∧ countRender (step envRet wUnres2).2.1 1 = 0
    ∧ (step envRet wUnres2).2.2 = false
    ∧ countRender (step envRet wUnres2).2.1 2 = 1 :=
  c3_unresolvable_entry_stays_dirty envRet wUnres2 1 2
    { needsRedraw := true, callbacks := [] } { needsRedraw := true, callbacks := [] } dA
    (fun cb a i h => CbBeh.noConfusion h)
    (fun el => rfl)
    (by decide) (by decide) (by decide) rfl (by decide) rfl (by decide)

/-- Counterexample for C4: after a tick in which the render routine throws
(surface 1), the exception aborts `step` before its re-arm/stop tail: the
active marker is neither cleared (`rafId` still holds the spent handle 1)
nor re-armed (no frame is pending). -/
theorem c4_counterexample :
    ¬ ((runTrace behThrow1 initWorld actsThrow).1.rafId = none
       ∨ ((runTrace behThrow1 initWorld actsThrow).1.pending).isSome = true) := by
  decide

/-- Claim C4 (amended): a `drawImageSync` throw propagates out of `step`
and skips the re-arm/stop tail — there is no cleanup-on-exit discipline.
The throwing entry and the unprocessed ones stay dirty, `rafId` keeps the
spent handle with no frame pending, and because `drawImage` only arms when
`rafId` is null, a later redraw request cannot arm a frame: no surface is
ever rendered again in the continued trace. -/
theorem c4_render_throw_wedges_scheduler :
    (runTrace behThrow1 initWorld actsThrowCont).1.rafId = some 1
    ∧ (runTrace behThrow1 initWorld actsThrowCont).1.pending = none
    ∧ dirtyAt (runTrace behThrow1 initWorld actsThrowCont).1 1 = true
    ∧ dirtyAt (runTrace behThrow1 initWorld actsThrowCont).1 2 = true
    ∧ countRender (runTrace behThrow1 initWorld actsThrowCont).2 1 = 0
    ∧ countRender (runTrace behThrow1 initWorld actsThrowCont).2 2 = 0 := by
  decide

/-- Counterexample for C5: the dirty-implies-armed invariant fails on a
reachable state — mark surface 1 dirty, tear it down, and let the tick
fire after the idle window expired: the tick skips the unresolvable entry
(leaving it dirty) and stops the loop, so the entry is dirty while
`rafId` is null. -/
theorem c5_counterexample :
    dirtyImpliesArmed (runTrace behRet initWorld actsStall).1 = false := by
  decide

/-- Claim C5 (amended): `drawImage` itself never leaves the dirty work it
creates unscheduled — any call that turns a surface dirty leaves `rafId`
non-null.  (As the counterexample shows, the invariant is not preserved
by ticks: an unresolvable dirty entry survives the idle stop.) -/
theorem c5_drawImage_schedules_dirty_work (env : Env) (w : World) (arg : Option EE)
    (inv : Bool) (e : Nat)
    (hbefore : dirtyAt w e = false)
    (hafter : dirtyAt (drawImage env w arg inv).1 e = true) :
    ((drawImage env w arg inv).1.rafId).isSome = true := by
  rcases guard_trichotomy arg with hrej | ⟨a, harg, hgp⟩ | ⟨a, harg, hc, hi, hl⟩
  · rw [drawImage_of_guardRejects env w arg inv hrej] at hafter
    rw [show dirtyAt (registerVisibilityChange env w) e = dirtyAt w e from by
      simp [dirtyAt]] at hafter
    rw [hbefore] at hafter
    exact Bool.noConfusion hafter
  · subst harg
    rw [drawImage_of_guardPasses env w a inv hgp]
    exact drawImageBody_rafId_isSome env (registerVisibilityChange env w) a inv
  · subst harg
    rw [drawImage_of_throwCase env w a inv hc hi hl] at hafter
    rw [show dirtyAt (registerVisibilityChange env w) e = dirtyAt w e from by
      simp [dirtyAt]] at hafter
    rw [hbefore] at hafter
    exact Bool.noConfusion hafter

/-- Witness for the amended C5: a fresh redraw of surface 1 marks it dirty
and leaves a request armed. -/
theorem c5_drawImage_schedules_dirty_work_witness :
    dirtyAt initWorld 1 = false
    ∧ dirtyAt (drawImage envRet initWorld (some eeA) false).1 1 = true
    ∧ ((drawImage envRet initWorld (some eeA) false).1.rafId).isSome = true :=
  ⟨by decide, by decide,
   c5_drawImage_schedules_dirty_work envRet initWorld (some eeA) false 1
     (by decide) (by decide)⟩

/-- Claim C6: during a tick, every callback registered for a rendered
surface is invoked exactly once with the resolved context, even when one
of the registered callbacks throws (each runs in its own try/catch); the
tick is not aborted and other dirty resolvable surfaces are still
rendered; and since the surface's callback set is non-empty, the idle
deadline is extended to `now + rafStopMaxTime`. -/
theorem c6_callbacks_isolated_per_surface (env : Env) (w : World) (e e2 cb cbT : Nat)
    (en en2 : Entry) (d d2 : EEData)
    (hnr : noRedrawEnv env) (hnt : noRenderThrows env)
    (hnd : (w.elementsDrawMap.map Prod.fst).Nodup)
    (hfe : alFind w.elementsDrawMap e = some en) (hdirty : en.needsRedraw = true)
    (hreg : alFind w.enabledElements e = some d)
    (hcnd : en.callbacks.Nodup) (hcb : cb ∈ en.callbacks)
    (hthrow : env.cbBeh cbT = CbBeh.throwErr) (hmemT : cbT ∈ en.callbacks)
    (hfe2 : alFind w.elementsDrawMap e2 = some en2) (hdirty2 : en2.needsRedraw = true)
    (hreg2 : alFind w.enabledElements e2 = some d2) :
    countCb (step env w).2.1 e cb = 1
    ∧ (step env w).1.rafStopTime = some (env.now + rafStopMaxTime)
    ∧ countRender (step env w).2.1 e2 = 1
    ∧ (step env w).2.2 = false := by
  obtain ⟨tl, hlog, hcr0, hcc0, hmap, hrst, hth⟩ := step_tail_split env w hnt
  have hmem : e ∈ w.elementsDrawMap.map Prod.fst := mem_keys_of_alFind_some hfe
  have hmem2 : e2 ∈ w.elementsDrawMap.map Prod.fst := mem_keys_of_alFind_some hfe2
  have hS := stepLoop_processes env hnr hnt e (w.elementsDrawMap.map Prod.fst) w
    en d hmem hnd hfe hdirty hreg
  have hS2 := stepLoop_processes env hnr hnt e2 (w.elementsDrawMap.map Prod.fst) w
    en2 d2 hmem2 hnd hfe2 hdirty2 hreg2
  have hnonempty : en.callbacks.isEmpty = false := by
    cases hl : en.callbacks with
    | nil =>
      rw [hl] at hcb
      exact absurd hcb (List.not_mem_nil cb)
    | cons a l => rfl
  refine ⟨?_, ?_, ?_, hth⟩
  · rw [hlog, countCb_append, hS.2.2.1 cb, hcc0 e cb,
      List.count_eq_one_of_mem hcnd hcb]
  · rw [hrst]
    exact hS.2.2.2 hnonempty
  · rw [hlog]
    simp [hS2.1, hcr0]

/-- Witness for C6: the spec scenario — callback 5 of surface 1 throws;
callback 7 of surface 1 is still invoked exactly once, the idle deadline
is extended, and surface 2 is still rendered in the same tick. -/
theorem c6_callbacks_isolated_per_surface_witness :
    countCb (step envCbThrow wTwoCb).2.1 1 7 = 1
    ∧ (step envCbThrow wTwoCb).1.rafStopTime = some (envCbThrow.now + rafStopMaxTime)
    ∧ countRender (step envCbThrow wTwoCb).2.1 2 = 1
    ∧ (step envCbThrow wTwoCb).2.2 = false :=
  c6_callbacks_isolated_per_surface envCbThrow wTwoCb 1 2 7 5
    { needsRedraw := true, callbacks := [5, 7] }
    { needsRedraw := true, callbacks := [9] } dA dA
    (by
      intro cb a i
      by_cases h5 : cb = 5 <;> simp [envCbThrow, h5])
    (fun el => rfl)
    (by decide) (by decide) rfl (by decide) (by decide) (by decide)
    rfl (by decide) (by decide) rfl (by decide)

/-! ### Callback registration lemmas -/

theorem addDrawCallback_find_of_some (w : World) (el f : Nat) (en : Entry)
    (h : alFind w.elementsDrawMap el = some en) :
    alFind (addDrawCallback w (some el) f).elementsDrawMap el
      = some { en with callbacks :=
          if f ∈ en.callbacks then en.callbacks else en.callbacks ++ [f] } := by
  unfold addDrawCallback
  simp only [h, Option.isSome_some, if_true]
  rw [alFind_alUpd_self, h]
  rfl

theorem addDrawCallback_of_mem (w : World) (el f : Nat) (en : Entry)
    (h : alFind w.elementsDrawMap el = some en) (hf : f ∈ en.callbacks) :
    addDrawCallback w (some el) f = w := by
  unfold addDrawCallback
  simp only [h, Option.isSome_some, if_true]
  rw [alUpd_of_find_eq _ _ en _ h (by simp [hf])]

theorem addDrawCallback_idem (w : World) (el f : Nat) :
    addDrawCallback (addDrawCallback w (some el) f) (some el) f
      = addDrawCallback w (some el) f := by
  cases hfe : alFind w.elementsDrawMap el with
  | some en =>
    refine addDrawCallback_of_mem _ el f _ (addDrawCallback_find_of_some w el f en hfe) ?_
    by_cases hmem : f ∈ en.callbacks
    · simpa [hmem] using hmem
    · simp [hmem]
  | none =>
    have hfind : alFind (addDrawCallback w (some el) f).elementsDrawMap el
        = some { needsRedraw := false, callbacks := [f] } := by
      unfold addDrawCallback
      simp only [hfe, Option.isSome_none, Bool.false_eq_true, if_false]
      rw [alFind_alUpd_self, alFind_append_of_none _ _ _ hfe]
      simp [alFind]
    exact addDrawCallback_of_mem _ el f _ hfind (by simp)

theorem removeDrawCallback_unknown_el (w : World) (el f : Nat)
    (h : alFind w.elementsDrawMap el = none) :
    removeDrawCallback w (some el) f = w := by
  unfold removeDrawCallback
  simp only [h]

theorem removeDrawCallback_not_mem (w : World) (el f : Nat) (en : Entry)
    (h : alFind w.elementsDrawMap el = some en) (hf : f ∉ en.callbacks) :
    removeDrawCallback w (some el) f = w := by
  unfold removeDrawCallback
  simp only [h]
  have hfil : en.callbacks.filter (fun c => c != f) = en.callbacks := by
    rw [List.filter_eq_self]
    intro a ha
    simp only [bne_iff_ne, ne_eq, decide_eq_true_eq]
    exact fun hh => hf (hh ▸ ha)
  rw [alUpd_of_find_eq _ _ en _ h (by simp [hfil])]

theorem addDrawCallback_enabledElements (w : World) (el f : Nat) :
    (addDrawCallback w (some el) f).enabledElements = w.enabledElements := by
  unfold addDrawCallback
  rfl

theorem addDrawCallback_keys_of_some (w : World) (el f : Nat) (en : Entry)
    (h : alFind w.elementsDrawMap el = some en) :
    (addDrawCallback w (some el) f).elementsDrawMap.map Prod.fst
      = w.elementsDrawMap.map Prod.fst := by
  unfold addDrawCallback
  simp only [h, Option.isSome_some, if_true]
  rw [alUpd_keys]

/-- Claim C7: callback registration has set semantics — adding the same
callback twice leaves the same state as adding it once; removing with a
null or unknown element, or an unregistered callback, changes no state;
and after a double registration the callback is invoked exactly once on a
qualifying tick. -/
theorem c7_callback_registration_set_semantics (env : Env)
    (wa : World) (ea fa : Nat) (wb : World) (fb : Nat)
    (wc : World) (ec fc : Nat) (wd : World) (ed fd : Nat) (en4 : Entry)
    (w : World) (e f : Nat) (en : Entry) (d : EEData)
    (hc : alFind wc.elementsDrawMap ec = none)
    (hd4 : alFind wd.elementsDrawMap ed = some en4) (hfd : fd ∉ en4.callbacks)
    (hnr : noRedrawEnv env) (hnt : noRenderThrows env)
    (hnd : (w.elementsDrawMap.map Prod.fst).Nodup)
    (hfe : alFind w.elementsDrawMap e = some en) (hdirty : en.needsRedraw = true)
    (hreg : alFind w.enabledElements e = some d)
    (hf : f ∉ en.callbacks) :
    addDrawCallback (addDrawCallback wa (some ea) fa) (some ea) fa
      = addDrawCallback wa (some ea) fa
    ∧ removeDrawCallback wb none fb = wb
    ∧ removeDrawCallback wc (some ec) fc = wc
    ∧ removeDrawCallback wd (some ed) fd = wd
    ∧ countCb (step env (addDrawCallback (addDrawCallback w (some e) f)
        (some e) f)).2.1 e f = 1 := by
  refine ⟨addDrawCallback_idem wa ea fa, rfl,
    removeDrawCallback_unknown_el wc ec fc hc,
    removeDrawCallback_not_mem wd ed fd en4 hd4 hfd, ?_⟩
  rw [addDrawCallback_idem w e f]
  have hfe1 : alFind (addDrawCallback w (some e) f).elementsDrawMap e
      = some { en with callbacks := en.callbacks ++ [f] } := by
    rw [addDrawCallback_find_of_some w e f en hfe]
    simp [hf]
  have hreg1 : alFind (addDrawCallback w (some e) f).enabledElements e = some d := by
    rw [addDrawCallback_enabledElements]
    exact hreg
  have hnd1 : ((addDrawCallback w (some e) f).elementsDrawMap.map Prod.fst).Nodup := by
    rw [addDrawCallback_keys_of_some w e f en hfe]
    exact hnd
  have hmem1 : e ∈ (addDrawCallback w (some e) f).elementsDrawMap.map Prod.fst :=
    mem_keys_of_alFind_some hfe1
  have hS := stepLoop_processes env hnr hnt e
    ((addDrawCallback w (some e) f).elementsDrawMap.map Prod.fst)
    (addDrawCallback w (some e) f)
    { en with callbacks := en.callbacks ++ [f] } d hmem1 hnd1 hfe1 hdirty hreg1
  obtain ⟨tl, hlog, hcr0, hcc0, hmap, hrst, hth⟩ :=
    step_tail_split env (addDrawCallback w (some e) f) hnt
  rw [hlog, countCb_append, hS.2.2.1 f, hcc0 e f]
  simp [List.count_append, List.count_eq_zero_of_not_mem hf]

/-- Witness for C7 at concrete states: double-adding callback 4 to surface
3, the no-op removals, and callback 11 double-registered on dirty surface
1 firing exactly once on the tick. -/
theorem c7_callback_registration_set_semantics_witness :
    addDrawCallback (addDrawCallback initWorld (some 3) 4) (some 3) 4
      = addDrawCallback initWorld (some 3) 4
    ∧ removeDrawCallback initWorld none 4 = initWorld
    ∧ removeDrawCallback initWorld (some 3) 4 = initWorld
    ∧ removeDrawCallback wTwoCb (some 1) 11 = wTwoCb
    ∧ countCb (step envRet (addDrawCallback (addDrawCallback wTwoCb (some 1) 11)
        (some 1) 11)).2.1 1 11 = 1 :=
  c7_callback_registration_set_semantics envRet
    initWorld 3 4 initWorld 4 initWorld 3 4 wTwoCb 1 11
    { needsRedraw := true, callbacks := [5, 7] }
    wTwoCb 1 11 { needsRedraw := true, callbacks := [5, 7] } dA
    rfl (by decide) (by decide)
    (fun cb a i h => CbBeh.noConfusion h)
    (fun el => rfl)
    (by decide) (by decide) rfl (by decide) (by decide)

/-! ### Pending-handle invariant -/

theorem drawImageBody_pendInv (env : Env) (w : World) (a : EE) (i : Bool)
    (h : pendInv w) : pendInv (drawImageBody env w a i).1 := by
  unfold drawImageBody
  rcases h with h | h <;> cases i <;> cases hr : w.rafId <;>
    simp [pendInv, hr, h] <;> simp [hr] at h <;> simp [h]

theorem drawImage_pendInv (env : Env) (w : World) (arg : Option EE) (i : Bool)
    (h : pendInv w) : pendInv (drawImage env w arg i).1 := by
  have hreg : pendInv (registerVisibilityChange env w) := by
    rcases h with h | h
    · left; simpa using h
    · right; simpa using h
  rcases guard_trichotomy arg with hrej | ⟨a, harg, hgp⟩ | ⟨a, harg, hc, hi, hl⟩
  · rw [drawImage_of_guardRejects env w arg i hrej]
    exact hreg
  · subst harg
    rw [drawImage_of_guardPasses env w a i hgp]
    exact drawImageBody_pendInv env (registerVisibilityChange env w) a i hreg
  · subst harg
    rw [drawImage_of_throwCase env w a i hc hi hl]
    exact hreg

theorem runCallbacks_pendInv (env : Env) (el : Nat) :
    ∀ (cbs : List Nat) (w : World), pendInv w →
    pendInv (runCallbacks env el cbs w).1 := by
  intro cbs
  induction cbs with
  | nil => intro w h; exact h
  | cons cb rest ih =>
    intro w h
    unfold runCallbacks
    cases hb : env.cbBeh cb with
    | ret => simpa using ih w h
    | throwErr => simpa using ih w h
    | redraw a i =>
      simpa using ih (drawImage env w a i).1 (drawImage_pendInv env w a i h)

theorem processEntry_pendInv (env : Env) (w : World) (el : Nat)
    (h : pendInv w) : pendInv (processEntry env w el).1 := by
  unfold processEntry
  cases hfe : alFind w.elementsDrawMap el with
  | none => exact h
  | some en =>
    cases hd : en.needsRedraw with
    | false => simpa [hd] using h
    | true =>
      cases hr : alFind w.enabledElements el with
      | none => simpa [hd, hr] using h
      | some d =>
        cases ht : env.renderThrows el with
        | true => simpa [hd, hr, ht] using h
        | false =>
          have hcd : pendInv (clearDirty w el) := by
            rcases h with h | h
            · left; simpa [clearDirty] using h
            · right; simpa [clearDirty] using h
          have hrc := runCallbacks_pendInv env el en.callbacks (clearDirty w el) hcd
          cases hcb : en.callbacks.isEmpty
          · rcases hrc with hh | hh
            · simp only [hd, hr, ht, hcb, clearDirty] at *
              simp [hd, hr, ht, hcb, pendInv]
              left
              simpa [clearDirty] using hh
            · simp [hd, hr, ht, hcb, pendInv]
              right
              simpa [clearDirty] using hh
          · simpa [hd, hr, ht, hcb, clearDirty] using hcd

theorem stepLoop_pendInv (env : Env) :
    ∀ (keys : List Nat) (w : World), pendInv w →
    pendInv (stepLoop env keys w).1 := by
  intro keys
  induction keys with
  | nil => intro w h; exact h
  | cons k rest ih =>
    intro w h
    unfold stepLoop
    have hpe := processEntry_pendInv env w k h
    cases hth : (processEntry env w k).2.2
    · simpa [hth] using ih (processEntry env w k).1 hpe
    · simpa [hth] using hpe

/-- Claim C8: at the end of a tick, a new refresh request is armed iff the
idle deadline is set and still in the future; otherwise the loop stops
with the active marker cleared and no frame pending, and a tick action
without a pending frame is a no-op — the loop stays dormant until a
`drawImage` or a visibility-resume arms a new frame. -/
theorem c8_rearm_iff_deadline_future (env : Env) (w : World)
    (b : Behaviors) (w2 : World) (t2 : Nat)
    (hnt : noRenderThrows env) (hp : pendInv w) (hp2 : w2.pending = none) :
    ((step env w).1.rafId.isSome = true
      ↔ ∃ t, (step env w).1.rafStopTime = some t ∧ env.now < t)
    ∧ ((step env w).1.rafId = none → (step env w).1.pending = none)
    ∧ runAct b w2 (Act.tick t2) = (w2, []) := by
  have hth := stepLoop_noThrow env hnt (w.elementsDrawMap.map Prod.fst) w
  have hpl := stepLoop_pendInv env (w.elementsDrawMap.map Prod.fst) w hp
  refine ⟨?_, ?_, ?_⟩
  case refine_3 =>
    unfold runAct
    simp [hp2]
  all_goals
    unfold step
    rcases hsl : stepLoop env (w.elementsDrawMap.map Prod.fst) w with ⟨w1, l1, th⟩
    rw [hsl] at hth hpl
    simp only at hth
    subst hth
    simp only [Bool.false_eq_true, if_false]
    rcases hrst : w1.rafStopTime with _ | t
  case refine_1.mk.mk.none =>
    unfold stopRaf
    cases hraf : w1.rafId <;> simp [hraf, hrst]
  case refine_1.mk.mk.some =>
    by_cases hlt : env.now < t
    · simp only [hlt, if_true]
      constructor
      · intro _
        exact ⟨t, rfl, hlt⟩
      · intro _
        rfl
    · simp only [hlt, if_false]
      unfold stopRaf
      cases hraf : w1.rafId <;> simp [hraf, hrst, hlt]
  case refine_2.mk.mk.none =>
    unfold stopRaf
    cases hraf : w1.rafId with
    | none =>
      intro _
      simp only at hpl
      rcases hpl with hh | hh
      · exact hh
      · rw [hh, hraf]
    | some hid =>
      intro _
      simp only at hpl
      rcases hpl with hh | hh
      · simp [hh]
      · rw [hh, hraf]
        simp
  case refine_2.mk.mk.some =>
    by_cases hlt : env.now < t
    · simp only [hlt, if_true]
      intro hcon
      exact Option.noConfusion hcon
    · simp only [hlt, if_false]
      unfold stopRaf
      cases hraf : w1.rafId with
      | none =>
        intro _
        simp only at hpl
        rcases hpl with hh | hh
        · exact hh
        · rw [hh, hraf]
      | some hid =>
        intro _
        simp only at hpl
        rcases hpl with hh | hh
        · simp [hh]
        · rw [hh, hraf]
          simp

/-- Witness for C8 at a concrete tick state and a concrete dormant state. -/
theorem c8_rearm_iff_deadline_future_witness :
    ((step envRet wUnres).1.rafId.isSome = true
      ↔ ∃ t, (step envRet wUnres).1.rafStopTime = some t ∧ envRet.now < t)
    ∧ ((step envRet wUnres).1.rafId = none → (step envRet wUnres).1.pending = none)
    ∧ runAct behRet initWorld (Act.tick 5) = (initWorld, []) :=
  c8_rearm_iff_deadline_future envRet wUnres behRet initWorld 5
    (fun el => rfl) (Or.inl rfl) rfl

theorem drawImageBody_noThrow (env : Env) (w : World) (a : EE) (i : Bool) :
    (drawImageBody env w a i).2.2 = false := by
  unfold drawImageBody
  cases i <;> cases hr : w.rafId <;> simp [hr]

/-- Counterexample for C9: `drawImage` does raise for one kind of invalid
input — an element with a truthy canvas, a falsy image and no `layers`
property makes the guard itself throw a TypeError evaluating
`enabledElement.layers.length`. -/
theorem c9_counterexample :
    (drawImage envRet initWorld (some eeBad) false).2.2 = true := by
  decide

/-- Claim C9 (amended): `drawImage` never raises provided every element
argument that has a canvas and no image carries a layers array; under the
guard, rejected inputs (null element, falsy canvas, no image and empty
layers) are silent no-ops: no event, no state change beyond the one-time
visibility registration. -/
theorem c9_guarded_calls_never_throw (env : Env) (w : World) (arg : Option EE)
    (inv : Bool)
    (hlay : ∀ ee, arg = some ee → ee.canvas = true → ee.image = false →
      ee.layers.isSome = true) :
    (drawImage env w arg inv).2.2 = false
    ∧ (guardRejects arg = true →
        (drawImage env w arg inv).1 = registerVisibilityChange env w
        ∧ (drawImage env w arg inv).2.1 = []) := by
  constructor
  · rcases guard_trichotomy arg with hrej | ⟨a, harg, hgp⟩ | ⟨a, harg, hc, hi, hl⟩
    · rw [drawImage_of_guardRejects env w arg inv hrej]
    · subst harg
      rw [drawImage_of_guardPasses env w a inv hgp]
      exact drawImageBody_noThrow env (registerVisibilityChange env w) a inv
    · subst harg
      have hh := hlay a rfl hc hi
      rw [hl] at hh
      exact absurd hh (by simp)
  · intro hrej
    rw [drawImage_of_guardRejects env w arg inv hrej]
    exact ⟨rfl, rfl⟩

/-- Witness for the amended C9: the null-element call neither throws nor
has any effect beyond the visibility registration. -/
theorem c9_guarded_calls_never_throw_witness :
    (drawImage envRet initWorld none false).2.2 = false
    ∧ (drawImage envRet initWorld none false).1
        = registerVisibilityChange envRet initWorld
    ∧ (drawImage envRet initWorld none false).2.1 = [] :=
  ⟨(c9_guarded_calls_never_throw envRet initWorld none false
      (fun ee h => Option.noConfusion h)).1,
   ((c9_guarded_calls_never_throw envRet initWorld none false
      (fun ee h => Option.noConfusion h)).2 rfl).1,
   ((c9_guarded_calls_never_throw envRet initWorld none false
      (fun ee h => Option.noConfusion h)).2 rfl).2⟩

/-- Claim C10: every `drawImage` call runs `registerVisibilityChange`
before validating its argument, so even a guard-rejected call (null or
invalid element) registers the one-time visibility hook — installing the
listener when the host has a visibility API — while leaving every other
piece of scheduler state (dirty table, registry with its invalid flags,
rafId, idle deadline, pending frame) untouched, emitting no event and not
throwing. -/
theorem c10_visibility_registration_precedes_validation (env : Env) (w : World)
    (arg : Option EE) (inv : Bool) (hrej : guardRejects arg = true) :
    (drawImage env w arg inv).1.visRegistered = true
    ∧ (env.hasVisAPI = true → w.visRegistered = false →
        (drawImage env w arg inv).1.visListener = true)
    ∧ (drawImage env w arg inv).1.elementsDrawMap = w.elementsDrawMap
    ∧ (drawImage env w arg inv).1.enabledElements = w.enabledElements
    ∧ (drawImage env w arg inv).1.rafId = w.rafId
    ∧ (drawImage env w arg inv).1.rafStopTime = w.rafStopTime
    ∧ (drawImage env w arg inv).1.pending = w.pending
    ∧ (drawImage env w arg inv).2.1 = []
    ∧ (drawImage env w arg inv).2.2 = false := by
  rw [drawImage_of_guardRejects env w arg inv hrej]
  refine ⟨regVis_visRegistered env w, ?_, by simp, by simp, by simp, by simp,
    by simp, rfl, rfl⟩
  intro h1 h2
  unfold registerVisibilityChange
  simp [h2, h1]

/-- Witness for C10: the null-element call from a fresh state registers
the visibility hook and changes nothing else. -/
theorem c10_visibility_registration_precedes_validation_witness :
    (drawImage envRet initWorld none false).1.visRegistered = true
    ∧ (drawImage envRet initWorld none false).1.visListener = true
    ∧ (drawImage envRet initWorld none false).1.elementsDrawMap
        = initWorld.elementsDrawMap
    ∧ (drawImage envRet initWorld none false).1.enabledElements
        = initWorld.enabledElements
    ∧ (drawImage envRet initWorld none false).1.rafId = initWorld.rafId
    ∧ (drawImage envRet initWorld none false).1.rafStopTime = initWorld.rafStopTime
    ∧ (drawImage envRet initWorld none false).1.pending = initWorld.pending
    ∧ (drawImage envRet initWorld none false).2.1 = []
    ∧ (drawImage envRet initWorld none false).2.2 = false :=
  ⟨(c10_visibility_registration_precedes_validation envRet initWorld none false rfl).1,
   (c10_visibility_registration_precedes_validation envRet initWorld none false rfl).2.1
     rfl rfl,
   (c10_visibility_registration_precedes_validation envRet initWorld none false rfl).2.2⟩
